import Mathlib

set_option maxHeartbeats 1000000

/-!
Shallow embedding of the `StructureStorage` container of `pyiron_contrib`
(module `pyiron_contrib/atomistics/atomistics/job/structurestorage.py`).
The implementation module is not part of the provided sources; only its test
suite is, so every definition below is modelled from the specification
(`spec.md`, sections 3 and 4) and cross-checked against the observable
behaviour asserted in `tests/atomistics/job/test_structurestorage.py`.
-/

/-- Modelled from the spec: a scalar cell value that can be held in a storage
array (string, real, integer or boolean element). -/
inductive Val where
  | vstr (s : String)
  | vnum (q : ℚ)
  | vint (n : Int)
  | vbool (b : Bool)
deriving DecidableEq, Repr

/-- Modelled from the spec: the element type recorded in an array's metadata. -/
inductive DType where
  | str
  | real
  | int
  | bool
deriving DecidableEq, Repr

/-- Modelled from the spec: whether an array stores one record per structure
or one record per atom. -/
inductive Per where
  | struct
  | atom
deriving DecidableEq, Repr

/-- Modelled from the spec: an n-dimensional array value, kept as a shape
together with the row-major flattened data, as in the numpy arrays the
container stores. -/
structure NDVal where
  shape : List Nat
  flat : List Val
deriving DecidableEq, Repr

/-- Encode a string as a scalar array value. -/
def encStr (s : String) : NDVal := ⟨[], [Val.vstr s]⟩

/-- Encode a natural number as a scalar integer array value. -/
def encNat (n : Nat) : NDVal := ⟨[], [Val.vint (Int.ofNat n)]⟩

/-- Encode a list of boolean flags as a one-dimensional array value. -/
def encBools (bs : List Bool) : NDVal := ⟨[bs.length], bs.map Val.vbool⟩

/-- Decode a scalar string array value. -/
def NDVal.asStr : NDVal → Option String
  | ⟨_, [Val.vstr s]⟩ => some s
  | _ => none

/-- Decode a scalar integer array value as a natural number. -/
def NDVal.asNat : NDVal → Option Nat
  | ⟨_, [Val.vint n]⟩ => some n.toNat
  | _ => none

/-- Decode a boolean cell value. -/
def Val.asBool : Val → Option Bool
  | Val.vbool b => some b
  | _ => none

/-- Decode a list of boolean cell values. -/
def decodeBoolList : List Val → Option (List Bool)
  | [] => some []
  | v :: vs =>
    match v.asBool, decodeBoolList vs with
    | some b, some bs => some (b :: bs)
    | _, _ => none

/-- Decode a one-dimensional boolean array value. -/
def decodeBools (v : NDVal) : Option (List Bool) := decodeBoolList v.flat

/-- Decode a list of scalar string array values. -/
def decodeStrs : List NDVal → Option (List String)
  | [] => some []
  | v :: vs =>
    match v.asStr, decodeStrs vs with
    | some s, some ss => some (s :: ss)
    | _, _ => none

/-- Split a flat buffer into `n` consecutive chunks of `k` cells each, the way
a numpy array of leading dimension `n` decomposes into its rows. -/
def chunkList (k : Nat) : Nat → List Val → List (List Val)
  | 0, _ => []
  | n + 1, l => l.take k :: chunkList k n (l.drop k)

/-- Split a flat buffer into the `n` rows of element shape `eshape` that a
numpy array of leading dimension `n` decomposes into. -/
def chunkRows (eshape : List Nat) (n : Nat) (flat : List Val) : List NDVal :=
  (chunkList eshape.prod n flat).map (fun fl => ⟨eshape, fl⟩)

/-- Modelled from the spec: the externally-owned atomic-structure object
contract (section 6): ordered per-atom chemical species, per-atom positions,
a periodic cell, boundary-condition flags and optional per-atom magnetic
moments. -/
structure AtomicStructure where
  symbols : List String
  positions : List NDVal
  cell : NDVal
  pbc : List Bool
  spins : Option (List NDVal)
deriving DecidableEq, Repr

/-- The atom count of a structure. -/
def AtomicStructure.len (s : AtomicStructure) : Nat := s.symbols.length

/-- First-match lookup in an association list keyed by array name. -/
def alookup {α : Type} : List (String × α) → String → Option α
  | [], _ => none
  | p :: ps, n => if p.1 = n then some p.2 else alookup ps n

/-- Apply `f` to every entry of the association list whose key is `n`. -/
def mapUpdate {α : Type} (m : List (String × α)) (n : String) (f : α → α) :
    List (String × α) :=
  m.map (fun p => if p.1 = n then (p.1, f p.2) else p)

/-- Overwrite the cells `[i, i + vs.length)` of a buffer with `vs`. -/
def setSlice {α : Type} (l : List α) (i : Nat) (vs : List α) : List α :=
  l.take i ++ vs ++ l.drop (i + vs.length)

/-- Modelled from the spec: one registered array, with its element shape,
element type, fill value and backing buffer (section 4.1; the buffer's leading
dimension is the allocated capacity for the array's kind). -/
structure ArrInfo where
  shape : List Nat
  dtype : DType
  fill : NDVal
  data : List NDVal
deriving DecidableEq, Repr

/-- Modelled from the spec: the growable columnar container (section 3): two
capacities, two write cursors, and the registries of per-structure and
per-atom arrays. -/
structure StructureStorage where
  num_structures_alloc : Nat
  num_atoms_alloc : Nat
  current_structure_index : Nat
  current_atom_index : Nat
  per_structure_arrays : List (String × ArrInfo)
  per_atom_arrays : List (String × ArrInfo)
deriving DecidableEq, Repr

namespace StructureStorage

/-- The live structure count: equal to the structure write cursor. -/
def num_structures (c : StructureStorage) : Nat := c.current_structure_index

/-- The live atom count: equal to the atom write cursor. -/
def num_atoms (c : StructureStorage) : Nat := c.current_atom_index

/-- The container length, as reported to `len()`. -/
def size (c : StructureStorage) : Nat := num_structures c

/-- Modelled from the spec: zero/empty fill cell for a given element type. -/
def zeroVal : DType → Val
  | DType.str => Val.vstr ""
  | DType.real => Val.vnum 0
  | DType.int => Val.vint 0
  | DType.bool => Val.vbool false

/-- Modelled from the spec: the default fill value for a freshly registered
array of the given element type and shape. -/
def defaultFill (dt : DType) (shape : List Nat) : NDVal :=
  ⟨shape, List.replicate shape.prod (zeroVal dt)⟩

/-- Modelled from the spec (section 4.1): register a named array for the given
kind, allocating a buffer of the current capacity filled with `fill`; if the
name already exists for that kind the call is a silent no-op regardless of
the new arguments. -/
def add_array (c : StructureStorage) (name : String) (shape : List Nat)
    (dtype : DType) (fill : NDVal) (per : Per) : StructureStorage :=
  match per with
  | Per.struct =>
    match alookup c.per_structure_arrays name with
    | some _ => c
    | none =>
      { c with per_structure_arrays :=
          c.per_structure_arrays ++
            [(name, ⟨shape, dtype, fill, List.replicate c.num_structures_alloc fill⟩)] }
  | Per.atom =>
    match alookup c.per_atom_arrays name with
    | some _ => c
    | none =>
      { c with per_atom_arrays :=
          c.per_atom_arrays ++
            [(name, ⟨shape, dtype, fill, List.replicate c.num_atoms_alloc fill⟩)] }

/-- A container with the given capacities and no arrays registered yet. -/
def emptyStore (ns na : Nat) : StructureStorage := ⟨ns, na, 0, 0, [], []⟩

/-- Modelled from the spec: container creation (section 3): register the
default per-structure arrays (`identifier`, `cell`, `pbc`, atom-range `start`
and `length`) and the default per-atom arrays (`symbols`, `positions`). -/
def create (ns na : Nat) : StructureStorage :=
  let c := emptyStore ns na
  let c := add_array c "identifier" [] DType.str (defaultFill DType.str []) Per.struct
  let c := add_array c "cell" [3, 3] DType.real (defaultFill DType.real [3, 3]) Per.struct
  let c := add_array c "pbc" [3] DType.bool (defaultFill DType.bool [3]) Per.struct
  let c := add_array c "start" [] DType.int (defaultFill DType.int []) Per.struct
  let c := add_array c "length" [] DType.int (defaultFill DType.int []) Per.struct
  let c := add_array c "symbols" [] DType.str (defaultFill DType.str []) Per.atom
  let c := add_array c "positions" [3] DType.real (defaultFill DType.real [3]) Per.atom
  c

/-- Modelled from the spec (section 4.2): the new capacity after a reservation:
unchanged when sufficient, otherwise grown to at least the need and by at
least a doubling factor. -/
def grownCap (cap need : Nat) : Nat := if need ≤ cap then cap else max need (2 * cap)

/-- Resize one array's buffer to a (larger) capacity, keeping its contents and
padding the new tail with the array's fill value. -/
def growInfo (newcap : Nat) (a : ArrInfo) : ArrInfo :=
  { a with data := a.data ++ List.replicate (newcap - a.data.length) a.fill }

/-- Modelled from the spec (section 4.2): ensure capacity for `n` more
structures, growing every per-structure buffer when insufficient. -/
def reserve_structures (c : StructureStorage) (n : Nat) : StructureStorage :=
  let newcap := grownCap c.num_structures_alloc (c.current_structure_index + n)
  { c with num_structures_alloc := newcap,
           per_structure_arrays := c.per_structure_arrays.map
             (fun p => (p.1, growInfo newcap p.2)) }

/-- Modelled from the spec (section 4.2): ensure capacity for `n` more atoms,
growing every per-atom buffer when insufficient. -/
def reserve_atoms (c : StructureStorage) (n : Nat) : StructureStorage :=
  let newcap := grownCap c.num_atoms_alloc (c.current_atom_index + n)
  { c with num_atoms_alloc := newcap,
           per_atom_arrays := c.per_atom_arrays.map
             (fun p => (p.1, growInfo newcap p.2)) }

/-- Write row `i` of the named per-structure array (no-op when absent). -/
def writePS (c : StructureStorage) (name : String) (i : Nat) (v : NDVal) :
    StructureStorage :=
  let m := mapUpdate c.per_structure_arrays name
    (fun a => { a with data := setSlice a.data i [v] })
  { c with per_structure_arrays := m }

/-- Write rows `[i, i + vs.length)` of the named per-atom array. -/
def writePA (c : StructureStorage) (name : String) (i : Nat) (vs : List NDVal) :
    StructureStorage :=
  let m := mapUpdate c.per_atom_arrays name
    (fun a => { a with data := setSlice a.data i vs })
  { c with per_atom_arrays := m }

end StructureStorage

/-- Modelled from the spec: a frame addressing a stored structure, either an
integer structure index or an identifier string (section 4.4). -/
inductive Frame where
  | idx (i : Nat)
  | ident (s : String)
deriving DecidableEq, Repr

/-- Reverse lookup of an identifier among the live identifier rows: first
match wins. `k` is the index of the first row of `rows` in the buffer. -/
def findIdent : List NDVal → String → Nat → Option Nat
  | [], _, _ => none
  | v :: vs, s, k => if v = encStr s then some k else findIdent vs s (k + 1)

namespace StructureStorage

/-- Modelled from the spec (section 4.4): resolve a frame to a structure
index; an integer frame must be a stored index, a string frame is resolved by
reverse lookup against the live rows of the `identifier` array. -/
def translate_frame (c : StructureStorage) : Frame → Option Nat
  | Frame.idx i => if i < c.current_structure_index then some i else none
  | Frame.ident s =>
    match alookup c.per_structure_arrays "identifier" with
    | none => none
    | some a => findIdent (a.data.take c.current_structure_index) s 0

/-- The atom-range descriptor `(start, length)` of structure `i`, read from
the default `start` and `length` per-structure arrays. -/
def atomRange (c : StructureStorage) (i : Nat) : Option (Nat × Nat) :=
  match alookup c.per_structure_arrays "start", alookup c.per_structure_arrays "length" with
  | some sa, some la =>
    match sa.data[i]?, la.data[i]? with
    | some sv, some lv =>
      match sv.asNat, lv.asNat with
      | some s, some l => some (s, l)
      | _, _ => none
    | _, _ => none
  | _, _ => none

/-- Reassemble the rows of a per-atom slice into one array value whose leading
dimension is the row count, trailing shape the declared element shape. -/
def stackRows (eshape : List Nat) (rows : List NDVal) : NDVal :=
  ⟨rows.length :: eshape, (rows.map NDVal.flat).flatten⟩

/-- Modelled from the spec (section 4.4): `get_array` returns the single row
at the resolved index for a per-structure array, and the stacked atom-range
slice for a per-atom array; absent names or unresolvable frames fail. -/
def get_array (c : StructureStorage) (name : String) (f : Frame) : Option NDVal :=
  match translate_frame c f with
  | none => none
  | some i =>
    match alookup c.per_structure_arrays name with
    | some a => a.data[i]?
    | none =>
      match alookup c.per_atom_arrays name with
      | none => none
      | some a =>
        match atomRange c i with
        | none => none
        | some (s, l) => some (stackRows a.shape ((a.data.drop s).take l))

/-- Modelled from the spec (section 4.4): the row obtained by broadcasting a
single scalar cell across the declared element shape. -/
def broadcastRow (sh : List Nat) (x : Val) : NDVal := ⟨sh, List.replicate sh.prod x⟩

/-- Modelled from the spec (section 4.4): `set_array` overwrites the resolved
row (per-structure) or atom slice (per-atom) in place; the value's shape must
match the declared element shape (with the slice's leading dimension for a
per-atom array), except that a scalar value broadcasts across the whole row
or slice; any other mismatch fails. -/
def set_array (c : StructureStorage) (name : String) (f : Frame) (v : NDVal) :
    Option StructureStorage :=
  match translate_frame c f with
  | none => none
  | some i =>
    match alookup c.per_structure_arrays name with
    | some a =>
      if v.shape = a.shape then some (writePS c name i v)
      else
        match v.shape, v.flat with
        | [], [x] => some (writePS c name i (broadcastRow a.shape x))
        | _, _ => none
    | none =>
      match alookup c.per_atom_arrays name with
      | none => none
      | some a =>
        match atomRange c i with
        | none => none
        | some (s, l) =>
          if v.shape = l :: a.shape then
            some (writePA c name s (chunkRows a.shape l v.flat))
          else
            match v.shape, v.flat with
            | [], [x] => some (writePA c name s (List.replicate l (broadcastRow a.shape x)))
            | _, _ => none

/-- Modelled from the spec (section 4.5): rebuild an atomic-structure object
from the species slice, positions slice, cell row and pbc row, attaching the
spins slice whenever a `spins` array is registered. -/
def get_structure (c : StructureStorage) (f : Frame) : Option AtomicStructure :=
  match translate_frame c f with
  | none => none
  | some i =>
    match atomRange c i with
    | none => none
    | some (s, l) =>
      match alookup c.per_atom_arrays "symbols", alookup c.per_atom_arrays "positions",
            alookup c.per_structure_arrays "cell", alookup c.per_structure_arrays "pbc" with
      | some syma, some posa, some cella, some pbca =>
        match decodeStrs ((syma.data.drop s).take l), cella.data[i]?, pbca.data[i]? with
        | some syms, some cellv, some pbcv =>
          match decodeBools pbcv with
          | none => none
          | some pbcs =>
            some ⟨syms, (posa.data.drop s).take l, cellv, pbcs,
              match alookup c.per_atom_arrays "spins" with
              | none => none
              | some spa => some ((spa.data.drop s).take l)⟩
        | _, _, _ => none
      | _, _, _, _ => none

/-- The lazy, finite sequence of reconstructed structures in index order. -/
def iter_structures (c : StructureStorage) : List (Option AtomicStructure) :=
  (List.range (num_structures c)).map (fun i => get_structure c (Frame.idx i))

/-- The live rows of the per-atom `symbols` array. -/
def symbolsLive (c : StructureStorage) : List NDVal :=
  match alookup c.per_atom_arrays "symbols" with
  | none => []
  | some a => a.data.take c.current_atom_index

/-- Modelled from the spec: `get_elements` returns the distinct chemical
element symbols occurring across all stored structures. -/
def get_elements (c : StructureStorage) : List String :=
  ((symbolsLive c).filterMap NDVal.asStr).dedup

/-- The element type inferred from a supplied array value. -/
def dtypeOf (v : NDVal) : DType :=
  match v.flat with
  | [] => DType.real
  | x :: _ =>
    match x with
    | Val.vstr _ => DType.str
    | Val.vnum _ => DType.real
    | Val.vint _ => DType.int
    | Val.vbool _ => DType.bool

/-- Modelled from the spec (section 4.3, step 5): ingest one extra keyword
value: if its leading dimension matches the structure's atom count it is
registered and stored per atom; otherwise it is registered and stored per
structure, with a unit leading dimension stripped. `i` is the structure row,
`a` the first atom row and `n` the structure's atom count. -/
def addKwarg (c : StructureStorage) (i a n : Nat) (name : String) (v : NDVal) :
    StructureStorage :=
  match v.shape with
  | [] =>
    let c := add_array c name [] (dtypeOf v) (defaultFill (dtypeOf v) []) Per.struct
    writePS c name i v
  | d :: rest =>
    if d = n then
      let c := add_array c name rest (dtypeOf v) (defaultFill (dtypeOf v) rest) Per.atom
      writePA c name a (chunkRows rest n v.flat)
    else
      let w : NDVal := if d = 1 then ⟨rest, v.flat⟩ else v
      let c := add_array c name w.shape (dtypeOf v) (defaultFill (dtypeOf v) w.shape) Per.struct
      writePS c name i w

/-- The element shape of the first row of a supplied spins slice. -/
def headShape : List NDVal → List Nat
  | [] => []
  | v :: _ => v.shape

/-- Write the default per-structure fields of a structure at row `i` and its
default per-atom fields at rows `[a, a + len)` (section 4.3, steps 2 and 3). -/
def writeDefaults (c : StructureStorage) (s : AtomicStructure) (idOpt : Option String)
    (i a : Nat) : StructureStorage :=
  let n := s.symbols.length
  let c2 := writePS c "identifier" i (encStr (idOpt.getD (toString i)))
  let c2 := writePS c2 "cell" i s.cell
  let c2 := writePS c2 "pbc" i (encBools s.pbc)
  let c2 := writePS c2 "start" i (encNat a)
  let c2 := writePS c2 "length" i (encNat n)
  let c2 := writePA c2 "symbols" a (s.symbols.map encStr)
  writePA c2 "positions" a s.positions

/-- Lazily register the `spins` per-atom array and write the supplied magnetic
moments at rows `[a, a + len)`, when the structure carries any (section 4.3,
step 4). -/
def writeSpins (c : StructureStorage) (spOpt : Option (List NDVal)) (a : Nat) :
    StructureStorage :=
  match spOpt with
  | none => c
  | some sp =>
    writePA (add_array c "spins" (headShape sp) DType.real
      (defaultFill DType.real (headShape sp)) Per.atom) "spins" a sp

/-- Advance the two write cursors (section 4.3, step 6). -/
def bumpCursors (c : StructureStorage) (i a : Nat) : StructureStorage :=
  { c with current_structure_index := i, current_atom_index := a }

/-- Modelled from the spec (section 4.3): append one structure: reserve
capacity, write the default per-structure fields at the current structure
row, write the default per-atom fields into the current atom rows, lazily
register and write `spins` when the structure carries magnetic moments,
ingest the extra keyword values, and advance both cursors. -/
def add_structure (c : StructureStorage) (s : AtomicStructure)
    (identifier : Option String) (extra : List (String × NDVal)) : StructureStorage :=
  let n := s.symbols.length
  let c1 := reserve_atoms (reserve_structures c 1) n
  let i := c1.current_structure_index
  let a := c1.current_atom_index
  let c4 := extra.foldl (fun cc kv => addKwarg cc i a n kv.1 kv.2)
    (writeSpins (writeDefaults c1 s identifier i a) s.spins a)
  bumpCursors c4 (i + 1) (a + n)

end StructureStorage

/-- Modelled from the spec (section 4.6): one value in the persisted
hierarchical group: a scalar counter or a full array with its metadata. -/
inductive HVal where
  | hnat (n : Nat)
  | harr (shape : List Nat) (dtype : DType) (per : Per) (fill : NDVal) (data : List NDVal)
deriving DecidableEq, Repr

namespace StructureStorage

/-- Modelled from the spec (section 4.6): serialize both counters, both
capacities, and every registered array (contents plus metadata) under the
given group. -/
def to_hdf (c : StructureStorage) : List (String × HVal) :=
  [("num_structures", HVal.hnat (num_structures c)),
   ("num_atoms", HVal.hnat (num_atoms c)),
   ("num_structures_alloc", HVal.hnat c.num_structures_alloc),
   ("num_atoms_alloc", HVal.hnat c.num_atoms_alloc)] ++
  c.per_structure_arrays.map
    (fun p => (p.1, HVal.harr p.2.shape p.2.dtype Per.struct p.2.fill p.2.data)) ++
  c.per_atom_arrays.map
    (fun p => (p.1, HVal.harr p.2.shape p.2.dtype Per.atom p.2.fill p.2.data))

/-- Read a scalar counter from a persisted group. -/
def readNat (g : List (String × HVal)) (k : String) : Option Nat :=
  match alookup g k with
  | some (HVal.hnat n) => some n
  | _ => none

/-- Collect the arrays of one kind from a persisted group, in group order. -/
def readArrays (g : List (String × HVal)) (per : Per) : List (String × ArrInfo) :=
  g.filterMap (fun p =>
    match p.2 with
    | HVal.harr sh dt pr fill data =>
      if pr = per then some (p.1, ⟨sh, dt, fill, data⟩) else none
    | _ => none)

/-- Modelled from the spec (section 4.6): restore a container from a persisted
group, fully replacing the target's registry and buffers (the target is not
merged into); a group missing a required counter fails. -/
def from_hdf (_target : StructureStorage) (g : List (String × HVal)) :
    Option StructureStorage :=
  match readNat g "num_structures", readNat g "num_atoms",
        readNat g "num_structures_alloc", readNat g "num_atoms_alloc" with
  | some ns, some na, some nsa, some naa =>
    some ⟨nsa, naa, ns, na, readArrays g Per.struct, readArrays g Per.atom⟩
  | _, _, _, _ => none

/-- The well-formedness check of a container: every buffer's length is the
allocated capacity of its kind, the cursors are within capacity, and the
default arrays are registered. -/
def validB (c : StructureStorage) : Bool :=
  c.per_structure_arrays.all (fun p => p.2.data.length == c.num_structures_alloc) &&
  c.per_atom_arrays.all (fun p => p.2.data.length == c.num_atoms_alloc) &&
  decide (c.current_structure_index ≤ c.num_structures_alloc) &&
  decide (c.current_atom_index ≤ c.num_atoms_alloc) &&
  (alookup c.per_structure_arrays "identifier").isSome &&
  (alookup c.per_structure_arrays "cell").isSome &&
  (alookup c.per_structure_arrays "pbc").isSome &&
  (alookup c.per_structure_arrays "start").isSome &&
  (alookup c.per_structure_arrays "length").isSome &&
  (alookup c.per_atom_arrays "symbols").isSome &&
  (alookup c.per_atom_arrays "positions").isSome

end StructureStorage

/-- The structure-object well-formedness of the external contract: the
positions (and spins, when present) have one row per atom. -/
def swfB (s : AtomicStructure) : Bool :=
  (s.positions.length == s.symbols.length) &&
  (match s.spins with
   | none => true
   | some sp => sp.length == s.symbols.length)

/-- One ingestion step of a build history: a structure with an optional
user-supplied identifier, added without extra keyword values. -/
def stepAdd (c : StructureStorage) (e : AtomicStructure × Option String) :
    StructureStorage :=
  StructureStorage.add_structure c e.1 e.2 []

/-- The container obtained by adding a history of structures, in order, to a
container pre-sized with the given capacities. -/
def build (ns na : Nat) (ss : List (AtomicStructure × Option String)) :
    StructureStorage :=
  ss.foldl stepAdd (StructureStorage.create ns na)

/-- The total atom count of a build history. -/
def totalLen (ss : List (AtomicStructure × Option String)) : Nat :=
  (ss.map (fun e => e.1.symbols.length)).sum

/-- The magnetic moments supplied by the first structure of a build history
that carries any, as used for the lazy `spins` registration. -/
def firstSpins : List (AtomicStructure × Option String) → Option (List NDVal)
  | [] => none
  | e :: es =>
    match e.1.spins with
    | some sp => some sp
    | none => firstSpins es

namespace StructureStorage

/-- Observation helper: row `j` of the named per-structure array. -/
def psRow (c : StructureStorage) (name : String) (j : Nat) : Option NDVal :=
  match alookup c.per_structure_arrays name with
  | none => none
  | some a => a.data[j]?

/-- Observation helper: the live rows of the named per-structure array. -/
def psLive (c : StructureStorage) (name : String) : List NDVal :=
  match alookup c.per_structure_arrays name with
  | none => []
  | some a => a.data.take c.current_structure_index

/-- Observation helper: the live rows of the named per-atom array. -/
def paLive (c : StructureStorage) (name : String) : List NDVal :=
  match alookup c.per_atom_arrays name with
  | none => []
  | some a => a.data.take c.current_atom_index

/-- Observation helper: rows `[a, a + l)` of the named per-atom array. -/
def paSlice (c : StructureStorage) (name : String) (a l : Nat) : List NDVal :=
  match alookup c.per_atom_arrays name with
  | none => []
  | some arr => (arr.data.drop a).take l

end StructureStorage

open StructureStorage

/-- The invariant tying a container to the build history that produced it:
well-formedness, the cursors, the default per-structure rows, the per-atom
slices and live contents, and the state of the lazily registered `spins`
array. -/
structure BuildInv (ss : List (AtomicStructure × Option String))
    (c : StructureStorage) : Prop where
  va : validB c = true
  csi : c.current_structure_index = ss.length
  cai : c.current_atom_index = totalLen ss
  identRow : ∀ j e, ss[j]? = some e →
    psRow c "identifier" j = some (encStr (e.2.getD (toString j)))
  cellRow : ∀ j e, ss[j]? = some e → psRow c "cell" j = some e.1.cell
  pbcRow : ∀ j e, ss[j]? = some e → psRow c "pbc" j = some (encBools e.1.pbc)
  startRow : ∀ j e, ss[j]? = some e →
    psRow c "start" j = some (encNat (totalLen (ss.take j)))
  lenRow : ∀ j e, ss[j]? = some e →
    psRow c "length" j = some (encNat e.1.symbols.length)
  symsSlice : ∀ j e, ss[j]? = some e →
    paSlice c "symbols" (totalLen (ss.take j)) e.1.symbols.length = e.1.symbols.map encStr
  posSlice : ∀ j e, ss[j]? = some e →
    paSlice c "positions" (totalLen (ss.take j)) e.1.symbols.length = e.1.positions
  symsLive : paLive c "symbols" = (ss.map (fun e => e.1.symbols.map encStr)).flatten
  posLive : paLive c "positions" = (ss.map (fun e => e.1.positions)).flatten
  spinsNone : (∀ e ∈ ss, e.1.spins = none) → alookup c.per_atom_arrays "spins" = none
  spinsReg : ∀ sp0, firstSpins ss = some sp0 →
    ∃ a, alookup c.per_atom_arrays "spins" = some a ∧ a.shape = headShape sp0
  spinsSlice : ∀ j e sp, ss[j]? = some e → e.1.spins = some sp →
    paSlice c "spins" (totalLen (ss.take j)) e.1.symbols.length = sp

/-! ### Concrete fixtures used by the closed witness theorems -/

/-- A concrete 3-vector position row. -/
def wPos (a : ℚ) : NDVal := ⟨[3], [Val.vnum a, Val.vnum a, Val.vnum a]⟩

/-- A concrete 3 by 3 cell. -/
def wCell : NDVal := ⟨[3, 3], List.replicate 9 (Val.vnum 1)⟩

/-- A concrete two-atom structure without spins. -/
def wFe : AtomicStructure :=
  ⟨["Fe", "Fe"], [wPos 0, wPos 1], wCell, [true, true, true], none⟩

/-- A concrete one-atom structure without spins. -/
def wMg : AtomicStructure :=
  ⟨["Mg"], [wPos 2], wCell, [true, false, true], none⟩

/-- Concrete scalar magnetic moments for a two-atom structure. -/
def wSpin1 : List NDVal := [⟨[], [Val.vnum 1]⟩, ⟨[], [Val.vnum 1]⟩]

/-- A concrete two-atom structure with scalar spins. -/
def wSpinFe : AtomicStructure :=
  ⟨["Fe", "Fe"], [wPos 0, wPos 1], wCell, [true, true, true], some wSpin1⟩

/-- A concrete container holding two structures. -/
def wC : StructureStorage := build 1 1 [(wFe, some "Fe2"), (wMg, none)]

/-- A concrete container mixing a spinless and a spin-carrying structure. -/
def wMix : StructureStorage := build 1 1 [(wFe, none), (wSpinFe, none)]

/-- A concrete extra keyword value whose shape has a unit leading dimension. -/
def wV12 : NDVal := ⟨[1, 2], [Val.vnum 1, Val.vnum 0]⟩

/-- A concrete per-atom value for overwriting a two-atom positions slice. -/
def wV23 : NDVal := ⟨[2, 3], List.replicate 6 (Val.vnum 5)⟩

/-- The concrete container after overwriting structure 0's positions. -/
def wCset : StructureStorage := writePA wC "positions" 0 (chunkRows [3] 2 wV23.flat)

/-- A concrete container built with one extra keyword value of unit leading
dimension. -/
def wKw : StructureStorage :=
  add_structure (create 1 1) wFe none [("fnord", wV12)]

/-! ### Association-list lemmas -/

theorem alookup_append_some {α : Type} {l₁ : List (String × α)} (l₂ : List (String × α))
    {n : String} {a : α} (h : alookup l₁ n = some a) : alookup (l₁ ++ l₂) n = some a := by
  induction l₁ with
  | nil => simp [alookup] at h
  | cons p ps ih =>
    simp only [alookup, List.cons_append] at h ⊢
    by_cases hp : p.1 = n
    · simpa [hp] using h
    · simp only [hp, if_false] at h ⊢
      exact ih h

theorem alookup_append_none {α : Type} {l₁ : List (String × α)} (l₂ : List (String × α))
    {n : String} (h : alookup l₁ n = none) : alookup (l₁ ++ l₂) n = alookup l₂ n := by
  induction l₁ with
  | nil => simp [alookup]
  | cons p ps ih =>
    simp only [alookup, List.cons_append] at h ⊢
    by_cases hp : p.1 = n
    · simp [hp] at h
    · simp only [hp, if_false] at h ⊢
      exact ih h

theorem alookup_mapUpdate_self {α : Type} (m : List (String × α)) (n : String) (f : α → α) :
    alookup (mapUpdate m n f) n = (alookup m n).map f := by
  induction m with
  | nil => simp [alookup, mapUpdate]
  | cons p ps ih =>
    simp only [mapUpdate, List.map_cons] at ih ⊢
    by_cases hp : p.1 = n
    · simp [alookup, hp]
    · simp [alookup, hp, ih]

theorem alookup_mapUpdate_ne {α : Type} (m : List (String × α)) {k n : String} (f : α → α)
    (h : k ≠ n) : alookup (mapUpdate m n f) k = alookup m k := by
  induction m with
  | nil => simp [alookup, mapUpdate]
  | cons p ps ih =>
    simp only [mapUpdate, List.map_cons] at ih ⊢
    by_cases hp : p.1 = n
    · have hk : p.1 ≠ k := fun hh => h (hh ▸ hp)
      rw [if_pos hp]
      simp only [alookup, if_neg hk]
      exact ih
    · rw [if_neg hp]
      by_cases hk : p.1 = k
      · simp [alookup, hk]
      · simp [alookup, hk, ih]

theorem alookup_mapSnd {α β : Type} (g : α → β) (m : List (String × α)) (k : String) :
    alookup (m.map (fun p => (p.1, g p.2))) k = (alookup m k).map g := by
  induction m with
  | nil => simp [alookup]
  | cons p ps ih =>
    by_cases hp : p.1 = k
    · simp [alookup, hp]
    · simp [alookup, hp, ih]

theorem alookup_mem {α : Type} {m : List (String × α)} {k : String} {a : α}
    (h : alookup m k = some a) : (k, a) ∈ m := by
  induction m with
  | nil => simp [alookup] at h
  | cons p ps ih =>
    simp only [alookup] at h
    by_cases hp : p.1 = k
    · simp only [hp, if_true, Option.some.injEq] at h
      have hpa : (k, a) = p := by rw [← hp, ← h]
      rw [hpa]
      exact List.mem_cons_self p ps
    · simp only [hp, if_false] at h
      exact List.mem_cons_of_mem _ (ih h)

/-! ### Buffer-slice lemmas -/

theorem getElem?_append_left_of_lt {α : Type} {l r : List α} {j : Nat} (h : j < l.length) :
    (l ++ r)[j]? = l[j]? := by
  rw [List.getElem?_append]
  exact if_pos h

theorem setSlice_length {α : Type} {l : List α} {i : Nat} {vs : List α}
    (h : i + vs.length ≤ l.length) : (setSlice l i vs).length = l.length := by
  simp only [setSlice, List.length_append, List.length_take, List.length_drop]
  omega

theorem getElem?_setSlice_lt {α : Type} {l : List α} {i : Nat} {vs : List α} {j : Nat}
    (h : j < i) (hi : i ≤ l.length) : (setSlice l i vs)[j]? = l[j]? := by
  have hlen : (l.take i).length = i := by simp [Nat.min_eq_left hi]
  simp only [setSlice]
  rw [getElem?_append_left_of_lt (by simp only [List.length_append, hlen]; omega),
    getElem?_append_left_of_lt (by rw [hlen]; exact h), List.getElem?_take_of_lt h]

theorem getElem?_setSlice_ge {α : Type} {l : List α} {i : Nat} {vs : List α} {j : Nat}
    (h : i + vs.length ≤ j) (hle : i + vs.length ≤ l.length) :
    (setSlice l i vs)[j]? = l[j]? := by
  have hi : i ≤ l.length := by omega
  have hlen : (l.take i ++ vs).length = i + vs.length := by
    simp [Nat.min_eq_left hi]
  simp only [setSlice]
  rw [List.getElem?_append_right (by rw [hlen]; omega : (l.take i ++ vs).length ≤ j), hlen]
  rw [List.getElem?_drop]
  congr 1
  omega

theorem drop_take_setSlice {α : Type} {l : List α} {i : Nat} {vs : List α}
    (hle : i + vs.length ≤ l.length) : ((setSlice l i vs).drop i).take vs.length = vs := by
  have hi : i ≤ l.length := by omega
  have hlen : (l.take i).length = i := by simp [Nat.min_eq_left hi]
  simp only [setSlice]
  rw [List.append_assoc, List.drop_left' hlen, List.take_left]

theorem take_setSlice {α : Type} {l : List α} {i : Nat} {vs : List α} (hi : i ≤ l.length) :
    (setSlice l i vs).take i = l.take i := by
  have hlen : (l.take i).length = i := by simp [Nat.min_eq_left hi]
  simp only [setSlice]
  rw [List.append_assoc, List.take_left' hlen]

theorem take_setSlice_full {α : Type} {l : List α} {i : Nat} {vs : List α}
    (hle : i + vs.length ≤ l.length) : (setSlice l i vs).take (i + vs.length) = l.take i ++ vs := by
  have hi : i ≤ l.length := by omega
  have hlen : (l.take i ++ vs).length = i + vs.length := by
    simp [Nat.min_eq_left hi]
  simp only [setSlice]
  rw [List.take_left' hlen]

theorem take_append_replicate {α : Type} (l : List α) (m k : Nat) (x : α) (h : k ≤ l.length) :
    (l ++ List.replicate m x).take k = l.take k := by
  rw [List.take_append_eq_append_take]
  have h0 : k - l.length = 0 := by omega
  simp [h0]

theorem drop_take_append_replicate {α : Type} (l : List α) (m : Nat) (x : α) {a k : Nat}
    (h : a + k ≤ l.length) : ((l ++ List.replicate m x).drop a).take k = (l.drop a).take k := by
  rw [List.drop_append_eq_append_drop]
  have ha : a - l.length = 0 := by omega
  rw [ha, List.drop_zero, List.take_append_eq_append_take]
  have hk : k - (l.drop a).length = 0 := by
    simp only [List.length_drop]
    omega
  rw [hk, List.take_zero, List.append_nil]

theorem drop_take_of_take {α : Type} (l : List α) {a k m : Nat} (h : a + k ≤ m) :
    ((l.take m).drop a).take k = (l.drop a).take k := by
  rw [List.drop_take, List.take_take]
  congr 1
  omega

/-! ### Chunking lemmas -/

theorem chunkList_length (k : Nat) : ∀ (n : Nat) (l : List Val), (chunkList k n l).length = n := by
  intro n
  induction n with
  | zero => intro l; simp [chunkList]
  | succ n ih => intro l; simp [chunkList, ih]

theorem chunkRows_length (eshape : List Nat) (n : Nat) (flat : List Val) :
    (chunkRows eshape n flat).length = n := by
  simp [chunkRows, chunkList_length]

theorem flatten_chunkList (k : Nat) :
    ∀ (n : Nat) (l : List Val), l.length = n * k → (chunkList k n l).flatten = l := by
  intro n
  induction n with
  | zero =>
    intro l hl
    simp only [Nat.zero_mul] at hl
    simp [chunkList, List.eq_nil_of_length_eq_zero hl]
  | succ n ih =>
    intro l hl
    simp only [chunkList, List.flatten_cons]
    rw [ih (l.drop k) (by simp [hl, Nat.succ_mul])]
    exact List.take_append_drop k l

theorem map_flat_chunkRows (eshape : List Nat) (n : Nat) (flat : List Val) :
    (chunkRows eshape n flat).map NDVal.flat = chunkList eshape.prod n flat := by
  simp only [chunkRows, List.map_map]
  have hf : (NDVal.flat ∘ fun fl => ({ shape := eshape, flat := fl } : NDVal)) = id := by
    funext fl
    rfl
  rw [hf, List.map_id]

/-! ### Encoding round-trip lemmas -/

theorem decodeStrs_map_encStr (xs : List String) : decodeStrs (xs.map encStr) = some xs := by
  induction xs with
  | nil => rfl
  | cons x xs ih => simp [decodeStrs, ih, encStr, NDVal.asStr]

theorem decodeBoolList_map_vbool (bs : List Bool) :
    decodeBoolList (bs.map Val.vbool) = some bs := by
  induction bs with
  | nil => rfl
  | cons b bs ih => simp [decodeBoolList, ih, Val.asBool]

theorem decodeBools_encBools (bs : List Bool) : decodeBools (encBools bs) = some bs := by
  simp [decodeBools, encBools, decodeBoolList_map_vbool]

theorem asNat_encNat (n : Nat) : (encNat n).asNat = some n := by
  simp [encNat, NDVal.asNat]

/-! ### Identifier-lookup lemmas -/

theorem findIdent_lt {s : String} :
    ∀ {l : List NDVal} {k j : Nat}, findIdent l s k = some j → j < k + l.length := by
  intro l
  induction l with
  | nil => intro k j h; simp [findIdent] at h
  | cons v vs ih =>
    intro k j h
    simp only [findIdent] at h
    by_cases hv : v = encStr s
    · simp only [hv, if_true, Option.some.injEq] at h
      simp only [List.length_cons]
      omega
    · simp only [hv, if_false] at h
      have hj := ih h
      simp only [List.length_cons]
      omega

theorem take_eq_of_rows {α : Type} (l : List α) (m : Nat) (f : Nat → α) (hm : m ≤ l.length)
    (h : ∀ j, j < m → l[j]? = some (f j)) : l.take m = (List.range m).map f := by
  apply List.ext_getElem?
  intro n
  by_cases hn : n < m
  · rw [List.getElem?_take_of_lt hn, h n hn]
    simp [List.getElem?_map, List.getElem?_range, hn]
  · have h1 : (l.take m)[n]? = none := by
      apply List.getElem?_eq_none
      simp only [List.length_take]
      omega
    have h2 : ((List.range m).map f)[n]? = none := by
      apply List.getElem?_eq_none
      simp only [List.length_map, List.length_range]
      omega
    rw [h1, h2]

/-! ### Claim C3: duplicate registration is a no-op -/

theorem alookup_singleton_self {α : Type} (n : String) (x : α) :
    alookup [(n, x)] n = some x := by
  simp [alookup]

/-- Claim C3: for an array name already registered for a given per kind, a
second add_array call with the same name and per kind is a silent no-op
regardless of its shape, dtype or fill arguments: the container, and with it
the originally allocated buffer, its fill values, shape and dtype, is
unchanged, and no error is raised. -/
theorem add_array_duplicate_noop (c : StructureStorage) (name : String)
    (sh : List Nat) (dt : DType) (fill : NDVal)
    (sh' : List Nat) (dt' : DType) (fill' : NDVal) (per : Per) :
    add_array (add_array c name sh dt fill per) name sh' dt' fill' per =
      add_array c name sh dt fill per := by
  cases per with
  | struct =>
    cases h : alookup c.per_structure_arrays name with
    | some a => simp only [add_array, h]
    | none =>
      have h2 : alookup (c.per_structure_arrays ++
          [(name, (⟨sh, dt, fill, List.replicate c.num_structures_alloc fill⟩ : ArrInfo))]) name =
          some ⟨sh, dt, fill, List.replicate c.num_structures_alloc fill⟩ :=
        (alookup_append_none _ h).trans (alookup_singleton_self _ _)
      simp only [add_array, h, h2]
  | atom =>
    cases h : alookup c.per_atom_arrays name with
    | some a => simp only [add_array, h]
    | none =>
      have h2 : alookup (c.per_atom_arrays ++
          [(name, (⟨sh, dt, fill, List.replicate c.num_atoms_alloc fill⟩ : ArrInfo))]) name =
          some ⟨sh, dt, fill, List.replicate c.num_atoms_alloc fill⟩ :=
        (alookup_append_none _ h).trans (alookup_singleton_self _ _)
      simp only [add_array, h, h2]

/-! ### Claim C2: persistence round-trip -/

theorem readArrays_append (g₁ g₂ : List (String × HVal)) (per : Per) :
    readArrays (g₁ ++ g₂) per = readArrays g₁ per ++ readArrays g₂ per := by
  simp [readArrays, List.filterMap_append]

theorem readArrays_map_same (per : Per) (m : List (String × ArrInfo)) :
    readArrays (m.map
      (fun p => (p.1, HVal.harr p.2.shape p.2.dtype per p.2.fill p.2.data))) per = m := by
  induction m with
  | nil => rfl
  | cons p ps ih =>
    simp only [List.map_cons, readArrays, List.filterMap_cons] at ih ⊢
    rw [if_pos trivial]
    exact congrArg (List.cons _) ih

theorem readArrays_map_other (per per' : Per) (h : per ≠ per')
    (m : List (String × ArrInfo)) :
    readArrays (m.map
      (fun p => (p.1, HVal.harr p.2.shape p.2.dtype per p.2.fill p.2.data))) per' = [] := by
  induction m with
  | nil => rfl
  | cons p ps ih =>
    simp only [List.map_cons, readArrays, List.filterMap_cons] at ih ⊢
    rw [if_neg h]
    exact ih

theorem readArrays_counters (c : StructureStorage) (per : Per) :
    readArrays [("num_structures", HVal.hnat (num_structures c)),
      ("num_atoms", HVal.hnat (num_atoms c)),
      ("num_structures_alloc", HVal.hnat c.num_structures_alloc),
      ("num_atoms_alloc", HVal.hnat c.num_atoms_alloc)] per = [] := rfl

theorem readArrays_to_hdf_struct (c : StructureStorage) :
    readArrays (to_hdf c) Per.struct = c.per_structure_arrays := by
  simp only [to_hdf]
  rw [readArrays_append, readArrays_append, readArrays_counters,
    readArrays_map_same, readArrays_map_other Per.atom Per.struct (by decide)]
  simp

theorem readArrays_to_hdf_atom (c : StructureStorage) :
    readArrays (to_hdf c) Per.atom = c.per_atom_arrays := by
  simp only [to_hdf]
  rw [readArrays_append, readArrays_append, readArrays_counters,
    readArrays_map_same, readArrays_map_other Per.struct Per.atom (by decide)]
  simp

theorem from_hdf_to_hdf (t c : StructureStorage) : from_hdf t (to_hdf c) = some c := by
  have h1 : readNat (to_hdf c) "num_structures" = some c.current_structure_index := rfl
  have h2 : readNat (to_hdf c) "num_atoms" = some c.current_atom_index := rfl
  have h3 : readNat (to_hdf c) "num_structures_alloc" = some c.num_structures_alloc := rfl
  have h4 : readNat (to_hdf c) "num_atoms_alloc" = some c.num_atoms_alloc := rfl
  simp only [from_hdf, h1, h2, h3, h4, readArrays_to_hdf_struct, readArrays_to_hdf_atom]

/-- Claim C2: writing a container to the persisted form and reading it back
into any target container (fresh or not, since from_hdf fully replaces the
target's registry and buffers rather than merging) reproduces equal
num_structures, num_atoms, equal size and an equal sequence of structures
from iter_structures; and a second write-then-read cycle on the restored
container yields the same observable state again, not an accumulation. -/
theorem hdf_roundtrip_observables (c t t' : StructureStorage) :
    ∃ c', from_hdf t (to_hdf c) = some c' ∧
      num_structures c' = num_structures c ∧
      num_atoms c' = num_atoms c ∧
      size c' = size c ∧
      iter_structures c' = iter_structures c ∧
      from_hdf t' (to_hdf c') = some c' :=
  ⟨c, from_hdf_to_hdf t c, rfl, rfl, rfl, rfl, from_hdf_to_hdf t' c⟩

/-! ### Claim C8: identifier and index frames are interchangeable -/

theorem translate_ident_lt {c : StructureStorage} {s : String} {i : Nat}
    (h : translate_frame c (Frame.ident s) = some i) : i < c.current_structure_index := by
  unfold translate_frame at h
  cases ha : alookup c.per_structure_arrays "identifier" with
  | none => rw [ha] at h; exact absurd h (by simp)
  | some a =>
    rw [ha] at h
    have hj := findIdent_lt h
    have hlen : (a.data.take c.current_structure_index).length ≤ c.current_structure_index := by
      simp [List.length_take]
    omega

/-- Claim C8: for a stored structure whose identifier string resolves to
integer index i, addressing by the identifier and by the index are
interchangeable: get_array agrees on every registered array name and
get_structure agrees. -/
theorem ident_and_index_interchangeable (c : StructureStorage) (s : String) (i : Nat)
    (h : translate_frame c (Frame.ident s) = some i) :
    (∀ name, get_array c name (Frame.ident s) = get_array c name (Frame.idx i)) ∧
    get_structure c (Frame.ident s) = get_structure c (Frame.idx i) := by
  have hlt : i < c.current_structure_index := translate_ident_lt h
  have hidx : translate_frame c (Frame.idx i) = some i := by
    simp [translate_frame, hlt]
  constructor
  · intro name
    simp only [get_array, h, hidx]
  · simp only [get_structure, h, hidx]

/-- Witness for claim C8 at a concrete container: the identifier "Fe2" of the
first stored structure resolves to index 0 and both addressings agree. -/
theorem ident_and_index_interchangeable_witness :
    (∀ name, get_array wC name (Frame.ident "Fe2") = get_array wC name (Frame.idx 0)) ∧
    get_structure wC (Frame.ident "Fe2") = get_structure wC (Frame.idx 0) :=
  ident_and_index_interchangeable wC "Fe2" 0 (by decide)

/-! ### Container well-formedness: extraction lemmas -/

theorem validB_parts {c : StructureStorage} (hv : validB c = true) :
    (∀ name a, alookup c.per_structure_arrays name = some a →
      a.data.length = c.num_structures_alloc) ∧
    (∀ name a, alookup c.per_atom_arrays name = some a →
      a.data.length = c.num_atoms_alloc) ∧
    c.current_structure_index ≤ c.num_structures_alloc ∧
    c.current_atom_index ≤ c.num_atoms_alloc ∧
    (alookup c.per_structure_arrays "identifier").isSome = true ∧
    (alookup c.per_structure_arrays "cell").isSome = true ∧
    (alookup c.per_structure_arrays "pbc").isSome = true ∧
    (alookup c.per_structure_arrays "start").isSome = true ∧
    (alookup c.per_structure_arrays "length").isSome = true ∧
    (alookup c.per_atom_arrays "symbols").isSome = true ∧
    (alookup c.per_atom_arrays "positions").isSome = true := by
  simp only [validB, Bool.and_eq_true, decide_eq_true_eq, List.all_eq_true, beq_iff_eq] at hv
  obtain ⟨⟨⟨⟨⟨⟨⟨⟨⟨⟨hps, hpa⟩, hsc⟩, hac⟩, hid⟩, hcell⟩, hpbc⟩, hstart⟩, hlen⟩, hsym⟩, hpos⟩ := hv
  refine ⟨fun name a h => hps _ (alookup_mem h), fun name a h => hpa _ (alookup_mem h),
    hsc, hac, hid, hcell, hpbc, hstart, hlen, hsym, hpos⟩

/-! ### Claim C4: set_array touches only the addressed structure -/

theorem writePS_csi (c : StructureStorage) (nm : String) (i : Nat) (v : NDVal) :
    (writePS c nm i v).current_structure_index = c.current_structure_index := rfl

theorem writePA_csi (c : StructureStorage) (nm : String) (i : Nat) (vs : List NDVal) :
    (writePA c nm i vs).current_structure_index = c.current_structure_index := rfl

theorem writePA_ps (c : StructureStorage) (nm : String) (i : Nat) (vs : List NDVal) :
    (writePA c nm i vs).per_structure_arrays = c.per_structure_arrays := rfl

theorem writePS_pa (c : StructureStorage) (nm : String) (i : Nat) (v : NDVal) :
    (writePS c nm i v).per_atom_arrays = c.per_atom_arrays := rfl

theorem atomRange_writePA (c : StructureStorage) (nm : String) (i : Nat)
    (vs : List NDVal) (j : Nat) : atomRange (writePA c nm i vs) j = atomRange c j := rfl

theorem translate_idx_of_lt {c : StructureStorage} {j : Nat}
    (h : j < c.current_structure_index) :
    translate_frame c (Frame.idx j) = some j := by
  simp [translate_frame, h]

theorem translate_idx_eq (c : StructureStorage) (i : Nat) :
    translate_frame c (Frame.idx i) =
      if i < c.current_structure_index then some i else none := rfl

theorem translate_idx_some {c : StructureStorage} {i i0 : Nat}
    (h : translate_frame c (Frame.idx i) = some i0) :
    i = i0 ∧ i < c.current_structure_index := by
  rw [translate_idx_eq] at h
  by_cases hlt : i < c.current_structure_index
  · rw [if_pos hlt] at h
    exact ⟨Option.some.inj h, hlt⟩
  · rw [if_neg hlt] at h
    exact absurd h (by simp)

theorem writePS_ps_eq (c : StructureStorage) (nm : String) (i : Nat) (v : NDVal) :
    (writePS c nm i v).per_structure_arrays =
      mapUpdate c.per_structure_arrays nm
        (fun a => { a with data := setSlice a.data i [v] }) := rfl

theorem writePA_pa_eq (c : StructureStorage) (nm : String) (i : Nat) (vs : List NDVal) :
    (writePA c nm i vs).per_atom_arrays =
      mapUpdate c.per_atom_arrays nm
        (fun a => { a with data := setSlice a.data i vs }) := rfl

/-- Claim C4: a successful set_array on structure index i (per-structure row
or per-atom slice, under the documented non-overlapping atom-range layout)
leaves get_array for the same name unchanged on every other stored structure
index j. -/
theorem set_array_frame_effect (c c' : StructureStorage) (name : String) (v : NDVal)
    (i j si li sj lj : Nat)
    (hv : validB c = true)
    (hset : set_array c name (Frame.idx i) v = some c')
    (hij : i ≠ j)
    (hj : j < num_structures c)
    (hri : atomRange c i = some (si, li))
    (hrj : atomRange c j = some (sj, lj))
    (hdisj : si + li ≤ sj ∨ sj + lj ≤ si)
    (hbi : si + li ≤ num_atoms c)
    (hbj : sj + lj ≤ num_atoms c) :
    get_array c' name (Frame.idx j) = get_array c name (Frame.idx j) := by
  obtain ⟨hpslen, hpalen, hscap, hacap, -⟩ := validB_parts hv
  have hj' : j < c.current_structure_index := hj
  unfold set_array at hset
  cases hti : translate_frame c (Frame.idx i) with
  | none => rw [hti] at hset; exact absurd hset (by simp)
  | some i0 =>
    obtain ⟨hi0, hilt⟩ := translate_idx_some hti
    subst hi0
    simp only [hti] at hset
    cases hps : alookup c.per_structure_arrays name with
    | some a =>
      simp only [hps] at hset
      have hw : ∃ w, c' = writePS c name i w := by
        by_cases hsh : v.shape = a.shape
        · rw [if_pos hsh, Option.some.injEq] at hset
          exact ⟨v, hset.symm⟩
        · rw [if_neg hsh] at hset
          cases hvs : v.shape with
          | cons d rest => simp only [hvs] at hset; cases hset
          | nil =>
            cases hvf : v.flat with
            | nil => simp only [hvs, hvf] at hset; cases hset
            | cons x xs =>
              cases xs with
              | nil =>
                simp only [hvs, hvf] at hset
                exact ⟨broadcastRow a.shape x, (Option.some.inj hset).symm⟩
              | cons y ys => simp only [hvs, hvf] at hset; cases hset
      obtain ⟨w, rfl⟩ := hw
      have hdlen : a.data.length = c.num_structures_alloc := hpslen name a hps
      have hibound : i + 1 ≤ a.data.length := by omega
      have htj : translate_frame (writePS c name i w) (Frame.idx j) = some j := by
        apply translate_idx_of_lt
        rw [writePS_csi]
        exact hj'
      have hlook : alookup (writePS c name i w).per_structure_arrays name =
          some { a with data := setSlice a.data i [w] } := by
        rw [writePS_ps_eq, alookup_mapUpdate_self, hps]
        rfl
      have hrow : (setSlice a.data i [w])[j]? = a.data[j]? := by
        rcases Nat.lt_or_ge j i with hlt | hge
        · exact getElem?_setSlice_lt hlt (by omega)
        · have hgt : i + 1 ≤ j := by omega
          exact getElem?_setSlice_ge (by simpa using hgt) (by simpa using hibound)
      simp only [get_array, htj, translate_idx_of_lt hj', hlook, hps, hrow]
    | none =>
      simp only [hps] at hset
      cases hpa : alookup c.per_atom_arrays name with
      | none => simp only [hpa] at hset; exact absurd hset (by simp)
      | some a =>
        simp only [hpa, hri] at hset
        have hw : ∃ rows : List NDVal, rows.length = li ∧ c' = writePA c name si rows := by
          by_cases hsh : v.shape = li :: a.shape
          · rw [if_pos hsh, Option.some.injEq] at hset
            exact ⟨chunkRows a.shape li v.flat, chunkRows_length _ _ _, hset.symm⟩
          · rw [if_neg hsh] at hset
            cases hvs : v.shape with
            | cons d rest => simp only [hvs] at hset; cases hset
            | nil =>
              cases hvf : v.flat with
              | nil => simp only [hvs, hvf] at hset; cases hset
              | cons x xs =>
                cases xs with
                | nil =>
                  simp only [hvs, hvf] at hset
                  exact ⟨List.replicate li (broadcastRow a.shape x),
                    List.length_replicate _ _, (Option.some.inj hset).symm⟩
                | cons y ys => simp only [hvs, hvf] at hset; cases hset
        obtain ⟨rows, hrows, rfl⟩ := hw
        have hdlen : a.data.length = c.num_atoms_alloc := hpalen name a hpa
        have htj : translate_frame (writePA c name si rows)
            (Frame.idx j) = some j := by
          apply translate_idx_of_lt
          rw [writePA_csi]
          exact hj'
        have hlookps : alookup (writePA c name si rows).per_structure_arrays
            name = none := by
          rw [writePA_ps]
          exact hps
        have hlookpa : alookup (writePA c name si rows).per_atom_arrays
            name = some { a with data := setSlice a.data si rows } := by
          rw [writePA_pa_eq, alookup_mapUpdate_self, hpa]
          rfl
        have hslice : ((setSlice a.data si rows).drop sj).take lj =
            (a.data.drop sj).take lj := by
          apply List.ext_getElem?
          intro m
          by_cases hm : m < lj
          · rw [List.getElem?_take_of_lt hm, List.getElem?_take_of_lt hm,
              List.getElem?_drop, List.getElem?_drop]
            cases hdisj with
            | inl hd =>
              apply getElem?_setSlice_ge
              · rw [hrows]; omega
              · rw [hrows]; simp only [num_atoms] at hbi; omega
            | inr hd =>
              apply getElem?_setSlice_lt
              · omega
              · simp only [num_atoms] at hbi; omega
          · have hlen1 :
                (((setSlice a.data si rows).drop sj).take lj).length ≤ lj := by
              simp [List.length_take]
            have hlen2 : ((a.data.drop sj).take lj).length ≤ lj := by
              simp [List.length_take]
            rw [List.getElem?_eq_none (by omega), List.getElem?_eq_none (by omega)]
        simp only [get_array, htj, translate_idx_of_lt hj', hlookps, hlookpa, hps, hpa,
          atomRange_writePA, hrj, hslice]

/-- Witness for claim C4 at a concrete container: overwriting structure 0's
positions slice leaves structure 1's positions unchanged. -/
theorem set_array_frame_effect_witness :
    get_array wCset "positions" (Frame.idx 1) = get_array wC "positions" (Frame.idx 1) :=
  set_array_frame_effect wC wCset "positions" wV23 0 1 0 2 2 1 (by decide) (by decide)
    (by decide) (by decide) (by decide) (by decide) (by decide) (by decide) (by decide)

/-! ### Capacity growth lemmas -/

theorem grownCap_ge_cap (cap need : Nat) : cap ≤ grownCap cap need := by
  by_cases h : need ≤ cap
  · simp [grownCap, h]
  · simp only [grownCap, if_neg h]
    calc cap ≤ 2 * cap := by omega
    _ ≤ max need (2 * cap) := Nat.le_max_right _ _

theorem grownCap_ge_need (cap need : Nat) : need ≤ grownCap cap need := by
  by_cases h : need ≤ cap
  · simp [grownCap, h]
  · simp only [grownCap, if_neg h]
    exact Nat.le_max_left _ _

theorem reserve_csi (c : StructureStorage) (n : Nat) :
    (reserve_atoms (reserve_structures c 1) n).current_structure_index =
      c.current_structure_index := rfl

theorem reserve_cai (c : StructureStorage) (n : Nat) :
    (reserve_atoms (reserve_structures c 1) n).current_atom_index =
      c.current_atom_index := rfl

theorem reserve_salloc (c : StructureStorage) (n : Nat) :
    (reserve_atoms (reserve_structures c 1) n).num_structures_alloc =
      grownCap c.num_structures_alloc (c.current_structure_index + 1) := rfl

theorem reserve_aalloc (c : StructureStorage) (n : Nat) :
    (reserve_atoms (reserve_structures c 1) n).num_atoms_alloc =
      grownCap c.num_atoms_alloc (c.current_atom_index + n) := rfl

theorem reserve_salloc_ge (c : StructureStorage) (n : Nat) :
    c.current_structure_index + 1 ≤ (reserve_atoms (reserve_structures c 1) n).num_structures_alloc :=
  grownCap_ge_need _ _

theorem reserve_aalloc_ge (c : StructureStorage) (n : Nat) :
    c.current_atom_index + n ≤ (reserve_atoms (reserve_structures c 1) n).num_atoms_alloc :=
  grownCap_ge_need _ _

theorem alookup_reserve_ps (c : StructureStorage) (n : Nat) (name : String) :
    alookup (reserve_atoms (reserve_structures c 1) n).per_structure_arrays name =
      (alookup c.per_structure_arrays name).map
        (growInfo (grownCap c.num_structures_alloc (c.current_structure_index + 1))) :=
  alookup_mapSnd _ _ _

theorem alookup_reserve_pa (c : StructureStorage) (n : Nat) (name : String) :
    alookup (reserve_atoms (reserve_structures c 1) n).per_atom_arrays name =
      (alookup c.per_atom_arrays name).map
        (growInfo (grownCap c.num_atoms_alloc (c.current_atom_index + n))) :=
  alookup_mapSnd _ _ _

theorem growInfo_length {cap newcap : Nat} (a : ArrInfo) (h : a.data.length = cap)
    (hle : cap ≤ newcap) : (growInfo newcap a).data.length = newcap := by
  simp only [growInfo, List.length_append, List.length_replicate, h]
  omega

theorem growInfo_shape (newcap : Nat) (a : ArrInfo) :
    (growInfo newcap a).shape = a.shape := rfl

/-! ### Well-formedness introduction and preservation -/

theorem validB_intro (c : StructureStorage)
    (h1 : ∀ p ∈ c.per_structure_arrays, p.2.data.length = c.num_structures_alloc)
    (h2 : ∀ p ∈ c.per_atom_arrays, p.2.data.length = c.num_atoms_alloc)
    (h3 : c.current_structure_index ≤ c.num_structures_alloc)
    (h4 : c.current_atom_index ≤ c.num_atoms_alloc)
    (h5 : (alookup c.per_structure_arrays "identifier").isSome = true)
    (h6 : (alookup c.per_structure_arrays "cell").isSome = true)
    (h7 : (alookup c.per_structure_arrays "pbc").isSome = true)
    (h8 : (alookup c.per_structure_arrays "start").isSome = true)
    (h9 : (alookup c.per_structure_arrays "length").isSome = true)
    (h10 : (alookup c.per_atom_arrays "symbols").isSome = true)
    (h11 : (alookup c.per_atom_arrays "positions").isSome = true) :
    validB c = true := by
  simp only [validB, Bool.and_eq_true, decide_eq_true_eq, List.all_eq_true, beq_iff_eq]
  exact ⟨⟨⟨⟨⟨⟨⟨⟨⟨⟨h1, h2⟩, h3⟩, h4⟩, h5⟩, h6⟩, h7⟩, h8⟩, h9⟩, h10⟩, h11⟩

theorem validB_elim {c : StructureStorage} (hv : validB c = true) :
    (∀ p ∈ c.per_structure_arrays, p.2.data.length = c.num_structures_alloc) ∧
    (∀ p ∈ c.per_atom_arrays, p.2.data.length = c.num_atoms_alloc) ∧
    c.current_structure_index ≤ c.num_structures_alloc ∧
    c.current_atom_index ≤ c.num_atoms_alloc ∧
    (alookup c.per_structure_arrays "identifier").isSome = true ∧
    (alookup c.per_structure_arrays "cell").isSome = true ∧
    (alookup c.per_structure_arrays "pbc").isSome = true ∧
    (alookup c.per_structure_arrays "start").isSome = true ∧
    (alookup c.per_structure_arrays "length").isSome = true ∧
    (alookup c.per_atom_arrays "symbols").isSome = true ∧
    (alookup c.per_atom_arrays "positions").isSome = true := by
  simp only [validB, Bool.and_eq_true, decide_eq_true_eq, List.all_eq_true, beq_iff_eq] at hv
  obtain ⟨⟨⟨⟨⟨⟨⟨⟨⟨⟨hps, hpa⟩, hsc⟩, hac⟩, hid⟩, hcell⟩, hpbc⟩, hstart⟩, hlen⟩, hsym⟩, hpos⟩ := hv
  exact ⟨hps, hpa, hsc, hac, hid, hcell, hpbc, hstart, hlen, hsym, hpos⟩

theorem isSome_omap {α β : Type} (g : α → β) (o : Option α) : (o.map g).isSome = o.isSome := by
  cases o <;> rfl

theorem alookup_isSome_mapSnd {α β : Type} (g : α → β) (m : List (String × α)) (k : String) :
    (alookup (m.map (fun p => (p.1, g p.2))) k).isSome = (alookup m k).isSome := by
  rw [alookup_mapSnd]
  cases alookup m k <;> rfl

theorem validB_reserve {c : StructureStorage} (n : Nat) (hv : validB c = true) :
    validB (reserve_atoms (reserve_structures c 1) n) = true := by
  obtain ⟨hps, hpa, hsc, hac, hid, hcell, hpbc, hstart, hlen, hsym, hpos⟩ := validB_elim hv
  apply validB_intro
  · intro p hp
    simp only [reserve_atoms, reserve_structures, List.mem_map] at hp
    obtain ⟨q, hq, rfl⟩ := hp
    exact growInfo_length q.2 (hps q hq) (grownCap_ge_cap _ _)
  · intro p hp
    simp only [reserve_atoms, reserve_structures, List.mem_map] at hp
    obtain ⟨q, hq, rfl⟩ := hp
    exact growInfo_length q.2 (hpa q hq) (grownCap_ge_cap _ _)
  · rw [reserve_csi, reserve_salloc]
    calc c.current_structure_index ≤ c.current_structure_index + 1 := by omega
    _ ≤ _ := grownCap_ge_need _ _
  · rw [reserve_cai, reserve_aalloc]
    calc c.current_atom_index ≤ c.current_atom_index + n := by omega
    _ ≤ _ := grownCap_ge_need _ _
  · rw [alookup_reserve_ps, isSome_omap]
    exact hid
  · rw [alookup_reserve_ps, isSome_omap]
    exact hcell
  · rw [alookup_reserve_ps, isSome_omap]
    exact hpbc
  · rw [alookup_reserve_ps, isSome_omap]
    exact hstart
  · rw [alookup_reserve_ps, isSome_omap]
    exact hlen
  · rw [alookup_reserve_pa, isSome_omap]
    exact hsym
  · rw [alookup_reserve_pa, isSome_omap]
    exact hpos

theorem Option.map_some2 {α β : Type} (f : α → β) (a : α) : (some a).map f = some (f a) := rfl

theorem Option.some_bind2 {α β : Type} (f : α → Option β) (a : α) : (some a).bind f = f a := rfl

/-! ### Observation helpers: unfolding equations -/

theorem psRow_eq (c : StructureStorage) (name : String) (j : Nat) :
    psRow c name j = (alookup c.per_structure_arrays name).bind (fun a => a.data[j]?) := by
  unfold psRow
  cases alookup c.per_structure_arrays name <;> rfl

theorem paSlice_eq (c : StructureStorage) (name : String) (a l : Nat) :
    paSlice c name a l =
      ((alookup c.per_atom_arrays name).map (fun arr => (arr.data.drop a).take l)).getD [] := by
  unfold paSlice
  cases alookup c.per_atom_arrays name <;> rfl

theorem paLive_eq (c : StructureStorage) (name : String) :
    paLive c name =
      ((alookup c.per_atom_arrays name).map
        (fun a => a.data.take c.current_atom_index)).getD [] := by
  unfold paLive
  cases alookup c.per_atom_arrays name <;> rfl

theorem psLive_eq (c : StructureStorage) (name : String) :
    psLive c name =
      ((alookup c.per_structure_arrays name).map
        (fun a => a.data.take c.current_structure_index)).getD [] := by
  unfold psLive
  cases alookup c.per_structure_arrays name <;> rfl

/-! ### Row and slice preservation through capacity growth -/

theorem psRow_reserve {c : StructureStorage} (n : Nat) (name : String) {j : Nat}
    (hv : validB c = true) (hj : j < c.num_structures_alloc) :
    psRow (reserve_atoms (reserve_structures c 1) n) name j = psRow c name j := by
  rw [psRow_eq, psRow_eq, alookup_reserve_ps]
  cases hx : alookup c.per_structure_arrays name with
  | none => rfl
  | some a =>
    have hlen : a.data.length = c.num_structures_alloc := (validB_parts hv).1 name a hx
    simp only [Option.map_some2, Option.some_bind2]
    show (a.data ++ List.replicate _ a.fill)[j]? = a.data[j]?
    exact getElem?_append_left_of_lt (by omega)

theorem paGet_reserve {c : StructureStorage} (n : Nat) (name : String) {p : Nat}
    (hv : validB c = true) (hp : p < c.num_atoms_alloc) :
    (alookup (reserve_atoms (reserve_structures c 1) n).per_atom_arrays name).bind
        (fun a => a.data[p]?) =
      (alookup c.per_atom_arrays name).bind (fun a => a.data[p]?) := by
  rw [alookup_reserve_pa]
  cases hx : alookup c.per_atom_arrays name with
  | none => rfl
  | some a =>
    have hlen : a.data.length = c.num_atoms_alloc := (validB_parts hv).2.1 name a hx
    simp only [Option.map_some2, Option.some_bind2]
    show (a.data ++ List.replicate _ a.fill)[p]? = a.data[p]?
    exact getElem?_append_left_of_lt (by omega)

theorem paSlice_reserve {c : StructureStorage} (n : Nat) (name : String) {b l : Nat}
    (hv : validB c = true) (hb : b + l ≤ c.num_atoms_alloc) :
    paSlice (reserve_atoms (reserve_structures c 1) n) name b l = paSlice c name b l := by
  rw [paSlice_eq, paSlice_eq, alookup_reserve_pa]
  cases hx : alookup c.per_atom_arrays name with
  | none => rfl
  | some a =>
    have hlen : a.data.length = c.num_atoms_alloc := (validB_parts hv).2.1 name a hx
    simp only [Option.map_some2, Option.getD_some]
    show ((a.data ++ List.replicate _ a.fill).drop b).take l = (a.data.drop b).take l
    exact drop_take_append_replicate a.data _ a.fill (by omega)

/-! ### Row and slice effects of the write primitives -/

theorem getElem?_setSlice_mid {α : Type} {l : List α} {i : Nat} {vs : List α} {m : Nat}
    (hm : m < vs.length) (hle : i + vs.length ≤ l.length) :
    (setSlice l i vs)[i + m]? = vs[m]? := by
  have hi : i ≤ l.length := by omega
  have hlen : (l.take i).length = i := by simp [Nat.min_eq_left hi]
  simp only [setSlice]
  rw [getElem?_append_left_of_lt (by simp only [List.length_append, hlen]; omega),
    List.getElem?_append_right (by rw [hlen]; omega : (l.take i).length ≤ i + m), hlen]
  congr 1
  omega

theorem alookup_writePS_self (c : StructureStorage) (nm : String) (i : Nat) (v : NDVal) :
    alookup (writePS c nm i v).per_structure_arrays nm =
      (alookup c.per_structure_arrays nm).map
        (fun a => { a with data := setSlice a.data i [v] }) := by
  rw [writePS_ps_eq, alookup_mapUpdate_self]

theorem alookup_writePS_ne (c : StructureStorage) {nm k : String} (i : Nat) (v : NDVal)
    (h : k ≠ nm) :
    alookup (writePS c nm i v).per_structure_arrays k = alookup c.per_structure_arrays k := by
  rw [writePS_ps_eq, alookup_mapUpdate_ne _ _ h]

theorem alookup_writePA_self (c : StructureStorage) (nm : String) (i : Nat) (vs : List NDVal) :
    alookup (writePA c nm i vs).per_atom_arrays nm =
      (alookup c.per_atom_arrays nm).map
        (fun a => { a with data := setSlice a.data i vs }) := by
  rw [writePA_pa_eq, alookup_mapUpdate_self]

theorem alookup_writePA_ne (c : StructureStorage) {nm k : String} (i : Nat) (vs : List NDVal)
    (h : k ≠ nm) :
    alookup (writePA c nm i vs).per_atom_arrays k = alookup c.per_atom_arrays k := by
  rw [writePA_pa_eq, alookup_mapUpdate_ne _ _ h]

theorem psRow_writePS_ne {c : StructureStorage} {nm name : String} {i j : Nat} {v : NDVal}
    (hv : validB c = true) (hi : i < c.num_structures_alloc) (hij : j ≠ i) :
    psRow (writePS c nm i v) name j = psRow c name j := by
  rw [psRow_eq, psRow_eq]
  by_cases hk : name = nm
  · subst hk
    rw [alookup_writePS_self]
    cases hx : alookup c.per_structure_arrays name with
    | none => rfl
    | some a =>
      have hlen : a.data.length = c.num_structures_alloc := (validB_parts hv).1 name a hx
      simp only [Option.map_some2, Option.some_bind2]
      show (setSlice a.data i [v])[j]? = a.data[j]?
      rcases Nat.lt_or_ge j i with hlt | hge
      · exact getElem?_setSlice_lt hlt (by omega)
      · exact getElem?_setSlice_ge (by simp only [List.length_cons, List.length_nil]; omega)
          (by simp only [List.length_cons, List.length_nil]; omega)
  · rw [alookup_writePS_ne _ _ _ hk]

theorem psRow_writePS_self {c : StructureStorage} {nm : String} {i : Nat} {v : NDVal}
    (hv : validB c = true) (hi : i < c.num_structures_alloc) :
    psRow (writePS c nm i v) nm i =
      (alookup c.per_structure_arrays nm).map (fun _ => v) := by
  rw [psRow_eq, alookup_writePS_self]
  cases hx : alookup c.per_structure_arrays nm with
  | none => rfl
  | some a =>
    have hlen : a.data.length = c.num_structures_alloc := (validB_parts hv).1 nm a hx
    simp only [Option.map_some2, Option.some_bind2]
    show (setSlice a.data i [v])[i]? = some v
    have h0 : (setSlice a.data i [v])[i + 0]? = [v][0]? :=
      getElem?_setSlice_mid (by simp) (by simp only [List.length_cons, List.length_nil]; omega)
    simpa using h0

theorem psRow_writePA (c : StructureStorage) (nm name : String) (i : Nat) (vs : List NDVal)
    (j : Nat) : psRow (writePA c nm i vs) name j = psRow c name j := rfl

theorem paSlice_writePS (c : StructureStorage) (nm name : String) (i : Nat) (v : NDVal)
    (b l : Nat) : paSlice (writePS c nm i v) name b l = paSlice c name b l := rfl

theorem paSlice_writePA_ne {c : StructureStorage} {nm name : String} (i : Nat)
    (vs : List NDVal) (b l : Nat) (h : name ≠ nm) :
    paSlice (writePA c nm i vs) name b l = paSlice c name b l := by
  rw [paSlice_eq, paSlice_eq, alookup_writePA_ne _ _ _ h]

theorem paSlice_writePA_self {c : StructureStorage} {nm : String} {i : Nat} {vs : List NDVal}
    (hv : validB c = true) (hb : i + vs.length ≤ c.num_atoms_alloc)
    (hsome : (alookup c.per_atom_arrays nm).isSome = true) :
    paSlice (writePA c nm i vs) nm i vs.length = vs := by
  rw [paSlice_eq, alookup_writePA_self]
  cases hx : alookup c.per_atom_arrays nm with
  | none => rw [hx] at hsome; exact absurd hsome (by simp)
  | some a =>
    have hlen : a.data.length = c.num_atoms_alloc := (validB_parts hv).2.1 nm a hx
    simp only [Option.map_some2, Option.getD_some]
    exact drop_take_setSlice (by omega)

theorem paSlice_writePA_before {c : StructureStorage} {nm : String} {i : Nat} {vs : List NDVal}
    (hv : validB c = true) (hwin : i + vs.length ≤ c.num_atoms_alloc)
    {b l : Nat} (hbl : b + l ≤ i) :
    paSlice (writePA c nm i vs) nm b l = paSlice c nm b l := by
  rw [paSlice_eq, paSlice_eq, alookup_writePA_self]
  cases hx : alookup c.per_atom_arrays nm with
  | none => rfl
  | some a =>
    have hlen : a.data.length = c.num_atoms_alloc := (validB_parts hv).2.1 nm a hx
    simp only [Option.map_some2, Option.getD_some]
    apply List.ext_getElem?
    intro m
    by_cases hm : m < l
    · rw [List.getElem?_take_of_lt hm, List.getElem?_take_of_lt hm, List.getElem?_drop,
        List.getElem?_drop]
      exact getElem?_setSlice_lt (by omega) (by omega)
    · rw [List.getElem?_eq_none, List.getElem?_eq_none]
      · simp only [List.length_take]
        omega
      · simp only [List.length_take]
        omega

/-! ### Effects of add_array -/

theorem alookup_append_singleton_ne {α : Type} (m : List (String × α)) {k n : String}
    (x : α) (h : k ≠ n) : alookup (m ++ [(n, x)]) k = alookup m k := by
  cases hm : alookup m k with
  | some a => exact alookup_append_some _ hm
  | none =>
    rw [alookup_append_none _ hm]
    have hnk : ¬n = k := fun hh => h hh.symm
    simp [alookup, hnk]

theorem add_array_struct_of_some {c : StructureStorage} {name : String} {a : ArrInfo}
    (sh : List Nat) (dt : DType) (fill : NDVal)
    (h : alookup c.per_structure_arrays name = some a) :
    add_array c name sh dt fill Per.struct = c := by
  simp [add_array, h]

theorem add_array_atom_of_some {c : StructureStorage} {name : String} {a : ArrInfo}
    (sh : List Nat) (dt : DType) (fill : NDVal)
    (h : alookup c.per_atom_arrays name = some a) :
    add_array c name sh dt fill Per.atom = c := by
  simp [add_array, h]

theorem add_array_struct_of_none {c : StructureStorage} {name : String}
    (sh : List Nat) (dt : DType) (fill : NDVal)
    (h : alookup c.per_structure_arrays name = none) :
    add_array c name sh dt fill Per.struct =
      { c with per_structure_arrays := c.per_structure_arrays ++
          [(name, ⟨sh, dt, fill, List.replicate c.num_structures_alloc fill⟩)] } := by
  simp [add_array, h]

theorem add_array_atom_of_none {c : StructureStorage} {name : String}
    (sh : List Nat) (dt : DType) (fill : NDVal)
    (h : alookup c.per_atom_arrays name = none) :
    add_array c name sh dt fill Per.atom =
      { c with per_atom_arrays := c.per_atom_arrays ++
          [(name, ⟨sh, dt, fill, List.replicate c.num_atoms_alloc fill⟩)] } := by
  simp [add_array, h]

theorem add_array_atom_ps (c : StructureStorage) (name : String)
    (sh : List Nat) (dt : DType) (fill : NDVal) :
    (add_array c name sh dt fill Per.atom).per_structure_arrays =
      c.per_structure_arrays := by
  cases h : alookup c.per_atom_arrays name with
  | some a => rw [add_array_atom_of_some _ _ _ h]
  | none => rw [add_array_atom_of_none _ _ _ h]

theorem add_array_struct_pa (c : StructureStorage) (name : String)
    (sh : List Nat) (dt : DType) (fill : NDVal) :
    (add_array c name sh dt fill Per.struct).per_atom_arrays = c.per_atom_arrays := by
  cases h : alookup c.per_structure_arrays name with
  | some a => rw [add_array_struct_of_some _ _ _ h]
  | none => rw [add_array_struct_of_none _ _ _ h]

theorem add_array_csi (c : StructureStorage) (name : String)
    (sh : List Nat) (dt : DType) (fill : NDVal) (per : Per) :
    (add_array c name sh dt fill per).current_structure_index =
      c.current_structure_index := by
  cases per with
  | struct =>
    cases h : alookup c.per_structure_arrays name with
    | some a => rw [add_array_struct_of_some _ _ _ h]
    | none => rw [add_array_struct_of_none _ _ _ h]
  | atom =>
    cases h : alookup c.per_atom_arrays name with
    | some a => rw [add_array_atom_of_some _ _ _ h]
    | none => rw [add_array_atom_of_none _ _ _ h]

theorem add_array_cai (c : StructureStorage) (name : String)
    (sh : List Nat) (dt : DType) (fill : NDVal) (per : Per) :
    (add_array c name sh dt fill per).current_atom_index = c.current_atom_index := by
  cases per with
  | struct =>
    cases h : alookup c.per_structure_arrays name with
    | some a => rw [add_array_struct_of_some _ _ _ h]
    | none => rw [add_array_struct_of_none _ _ _ h]
  | atom =>
    cases h : alookup c.per_atom_arrays name with
    | some a => rw [add_array_atom_of_some _ _ _ h]
    | none => rw [add_array_atom_of_none _ _ _ h]

theorem add_array_salloc (c : StructureStorage) (name : String)
    (sh : List Nat) (dt : DType) (fill : NDVal) (per : Per) :
    (add_array c name sh dt fill per).num_structures_alloc = c.num_structures_alloc := by
  cases per with
  | struct =>
    cases h : alookup c.per_structure_arrays name with
    | some a => rw [add_array_struct_of_some _ _ _ h]
    | none => rw [add_array_struct_of_none _ _ _ h]
  | atom =>
    cases h : alookup c.per_atom_arrays name with
    | some a => rw [add_array_atom_of_some _ _ _ h]
    | none => rw [add_array_atom_of_none _ _ _ h]

theorem add_array_aalloc (c : StructureStorage) (name : String)
    (sh : List Nat) (dt : DType) (fill : NDVal) (per : Per) :
    (add_array c name sh dt fill per).num_atoms_alloc = c.num_atoms_alloc := by
  cases per with
  | struct =>
    cases h : alookup c.per_structure_arrays name with
    | some a => rw [add_array_struct_of_some _ _ _ h]
    | none => rw [add_array_struct_of_none _ _ _ h]
  | atom =>
    cases h : alookup c.per_atom_arrays name with
    | some a => rw [add_array_atom_of_some _ _ _ h]
    | none => rw [add_array_atom_of_none _ _ _ h]

theorem alookup_add_array_atom_ne {c : StructureStorage} {name k : String}
    (sh : List Nat) (dt : DType) (fill : NDVal) (h : k ≠ name) :
    alookup (add_array c name sh dt fill Per.atom).per_atom_arrays k =
      alookup c.per_atom_arrays k := by
  cases hm : alookup c.per_atom_arrays name with
  | some a => rw [add_array_atom_of_some _ _ _ hm]
  | none =>
    rw [add_array_atom_of_none _ _ _ hm]
    exact alookup_append_singleton_ne _ _ h

theorem alookup_add_array_struct_ne {c : StructureStorage} {name k : String}
    (sh : List Nat) (dt : DType) (fill : NDVal) (h : k ≠ name) :
    alookup (add_array c name sh dt fill Per.struct).per_structure_arrays k =
      alookup c.per_structure_arrays k := by
  cases hm : alookup c.per_structure_arrays name with
  | some a => rw [add_array_struct_of_some _ _ _ hm]
  | none =>
    rw [add_array_struct_of_none _ _ _ hm]
    exact alookup_append_singleton_ne _ _ h

theorem alookup_add_array_atom_self_none {c : StructureStorage} {name : String}
    (sh : List Nat) (dt : DType) (fill : NDVal)
    (h : alookup c.per_atom_arrays name = none) :
    alookup (add_array c name sh dt fill Per.atom).per_atom_arrays name =
      some ⟨sh, dt, fill, List.replicate c.num_atoms_alloc fill⟩ := by
  rw [add_array_atom_of_none _ _ _ h]
  exact (alookup_append_none _ h).trans (alookup_singleton_self _ _)

theorem alookup_add_array_struct_self_none {c : StructureStorage} {name : String}
    (sh : List Nat) (dt : DType) (fill : NDVal)
    (h : alookup c.per_structure_arrays name = none) :
    alookup (add_array c name sh dt fill Per.struct).per_structure_arrays name =
      some ⟨sh, dt, fill, List.replicate c.num_structures_alloc fill⟩ := by
  rw [add_array_struct_of_none _ _ _ h]
  exact (alookup_append_none _ h).trans (alookup_singleton_self _ _)

/-! ### Well-formedness preservation through writes and registration -/

theorem alookup_isSome_mapUpdate {α : Type} (m : List (String × α)) (n k : String)
    (f : α → α) : (alookup (mapUpdate m n f) k).isSome = (alookup m k).isSome := by
  by_cases h : k = n
  · subst h
    rw [alookup_mapUpdate_self]
    cases alookup m k <;> rfl
  · rw [alookup_mapUpdate_ne _ _ h]

theorem validB_writePS {c : StructureStorage} (nm : String) {i : Nat} (v : NDVal)
    (hv : validB c = true) (hi : i < c.num_structures_alloc) :
    validB (writePS c nm i v) = true := by
  obtain ⟨hps, hpa, hsc, hac, h5, h6, h7, h8, h9, h10, h11⟩ := validB_elim hv
  apply validB_intro
  · intro p hp
    rw [writePS_ps_eq] at hp
    simp only [mapUpdate, List.mem_map] at hp
    obtain ⟨q, hq, hpq⟩ := hp
    by_cases hcond : q.1 = nm
    · rw [if_pos hcond] at hpq
      rw [← hpq]
      show (setSlice q.2.data i [v]).length = _
      rw [setSlice_length (by have := hps q hq; simp only [List.length_cons, List.length_nil]; omega)]
      exact hps q hq
    · rw [if_neg hcond] at hpq
      rw [← hpq]
      exact hps q hq
  · intro p hp
    rw [writePS_pa] at hp
    exact hpa p hp
  · exact hsc
  · exact hac
  · rw [writePS_ps_eq, alookup_isSome_mapUpdate]; exact h5
  · rw [writePS_ps_eq, alookup_isSome_mapUpdate]; exact h6
  · rw [writePS_ps_eq, alookup_isSome_mapUpdate]; exact h7
  · rw [writePS_ps_eq, alookup_isSome_mapUpdate]; exact h8
  · rw [writePS_ps_eq, alookup_isSome_mapUpdate]; exact h9
  · rw [writePS_pa]; exact h10
  · rw [writePS_pa]; exact h11

theorem writePA_salloc (c : StructureStorage) (nm : String) (i : Nat) (vs : List NDVal) :
    (writePA c nm i vs).num_structures_alloc = c.num_structures_alloc := rfl

theorem writePA_aalloc (c : StructureStorage) (nm : String) (i : Nat) (vs : List NDVal) :
    (writePA c nm i vs).num_atoms_alloc = c.num_atoms_alloc := rfl

theorem writePS_salloc (c : StructureStorage) (nm : String) (i : Nat) (v : NDVal) :
    (writePS c nm i v).num_structures_alloc = c.num_structures_alloc := rfl

theorem writePS_aalloc (c : StructureStorage) (nm : String) (i : Nat) (v : NDVal) :
    (writePS c nm i v).num_atoms_alloc = c.num_atoms_alloc := rfl

theorem writePS_cai (c : StructureStorage) (nm : String) (i : Nat) (v : NDVal) :
    (writePS c nm i v).current_atom_index = c.current_atom_index := rfl

theorem writePA_cai (c : StructureStorage) (nm : String) (i : Nat) (vs : List NDVal) :
    (writePA c nm i vs).current_atom_index = c.current_atom_index := rfl

theorem validB_writePA {c : StructureStorage} (nm : String) {i : Nat} (vs : List NDVal)
    (hv : validB c = true) (hb : i + vs.length ≤ c.num_atoms_alloc) :
    validB (writePA c nm i vs) = true := by
  obtain ⟨hps, hpa, hsc, hac, h5, h6, h7, h8, h9, h10, h11⟩ := validB_elim hv
  apply validB_intro
  · intro p hp
    rw [writePA_ps] at hp
    exact hps p hp
  · intro p hp
    rw [writePA_pa_eq] at hp
    simp only [mapUpdate, List.mem_map] at hp
    obtain ⟨q, hq, hpq⟩ := hp
    by_cases hcond : q.1 = nm
    · rw [if_pos hcond] at hpq
      rw [← hpq]
      show (setSlice q.2.data i vs).length = _
      rw [setSlice_length (by have := hpa q hq; omega)]
      exact hpa q hq
    · rw [if_neg hcond] at hpq
      rw [← hpq]
      exact hpa q hq
  · exact hsc
  · exact hac
  · rw [writePA_ps]; exact h5
  · rw [writePA_ps]; exact h6
  · rw [writePA_ps]; exact h7
  · rw [writePA_ps]; exact h8
  · rw [writePA_ps]; exact h9
  · rw [writePA_pa_eq, alookup_isSome_mapUpdate]; exact h10
  · rw [writePA_pa_eq, alookup_isSome_mapUpdate]; exact h11

theorem alookup_isSome_append {α : Type} (m m' : List (String × α)) (k : String)
    (h : (alookup m k).isSome = true) : (alookup (m ++ m') k).isSome = true := by
  cases hm : alookup m k with
  | none => rw [hm] at h; exact absurd h (by simp)
  | some a => rw [alookup_append_some _ hm]; rfl

theorem validB_add_array {c : StructureStorage} (name : String) (sh : List Nat)
    (dt : DType) (fill : NDVal) (per : Per) (hv : validB c = true) :
    validB (add_array c name sh dt fill per) = true := by
  obtain ⟨hps, hpa, hsc, hac, h5, h6, h7, h8, h9, h10, h11⟩ := validB_elim hv
  cases per with
  | struct =>
    cases hm : alookup c.per_structure_arrays name with
    | some a => rw [add_array_struct_of_some _ _ _ hm]; exact hv
    | none =>
      rw [add_array_struct_of_none _ _ _ hm]
      apply validB_intro
      · intro p hp
        rcases List.mem_append.mp hp with hp1 | hp2
        · exact hps p hp1
        · have : p = (name, (⟨sh, dt, fill, List.replicate c.num_structures_alloc fill⟩ : ArrInfo)) := by
            simpa using hp2
          rw [this]
          simp
      · exact hpa
      · exact hsc
      · exact hac
      · exact alookup_isSome_append _ _ _ h5
      · exact alookup_isSome_append _ _ _ h6
      · exact alookup_isSome_append _ _ _ h7
      · exact alookup_isSome_append _ _ _ h8
      · exact alookup_isSome_append _ _ _ h9
      · exact h10
      · exact h11
  | atom =>
    cases hm : alookup c.per_atom_arrays name with
    | some a => rw [add_array_atom_of_some _ _ _ hm]; exact hv
    | none =>
      rw [add_array_atom_of_none _ _ _ hm]
      apply validB_intro
      · exact hps
      · intro p hp
        rcases List.mem_append.mp hp with hp1 | hp2
        · exact hpa p hp1
        · have : p = (name, (⟨sh, dt, fill, List.replicate c.num_atoms_alloc fill⟩ : ArrInfo)) := by
            simpa using hp2
          rw [this]
          simp
      · exact hsc
      · exact hac
      · exact h5
      · exact h6
      · exact h7
      · exact h8
      · exact h9
      · exact alookup_isSome_append _ _ _ h10
      · exact alookup_isSome_append _ _ _ h11

/-! ### Effects of the default-field writes -/

theorem writeDefaults_csi (c : StructureStorage) (s : AtomicStructure)
    (idOpt : Option String) (i a : Nat) :
    (writeDefaults c s idOpt i a).current_structure_index = c.current_structure_index := rfl

theorem writeDefaults_cai (c : StructureStorage) (s : AtomicStructure)
    (idOpt : Option String) (i a : Nat) :
    (writeDefaults c s idOpt i a).current_atom_index = c.current_atom_index := rfl

theorem writeDefaults_salloc (c : StructureStorage) (s : AtomicStructure)
    (idOpt : Option String) (i a : Nat) :
    (writeDefaults c s idOpt i a).num_structures_alloc = c.num_structures_alloc := rfl

theorem writeDefaults_aalloc (c : StructureStorage) (s : AtomicStructure)
    (idOpt : Option String) (i a : Nat) :
    (writeDefaults c s idOpt i a).num_atoms_alloc = c.num_atoms_alloc := rfl

theorem WD_ps_identifier (c : StructureStorage) (s : AtomicStructure)
    (idOpt : Option String) (i a : Nat) :
    alookup (writeDefaults c s idOpt i a).per_structure_arrays "identifier" =
      (alookup c.per_structure_arrays "identifier").map
        (fun arr => { arr with
          data := setSlice arr.data i [encStr (idOpt.getD (toString i))] }) := by
  simp only [writeDefaults]
  rw [writePA_ps, writePA_ps, alookup_writePS_ne _ _ _ (by decide),
    alookup_writePS_ne _ _ _ (by decide), alookup_writePS_ne _ _ _ (by decide),
    alookup_writePS_ne _ _ _ (by decide), alookup_writePS_self]

theorem WD_ps_cell (c : StructureStorage) (s : AtomicStructure)
    (idOpt : Option String) (i a : Nat) :
    alookup (writeDefaults c s idOpt i a).per_structure_arrays "cell" =
      (alookup c.per_structure_arrays "cell").map
        (fun arr => { arr with data := setSlice arr.data i [s.cell] }) := by
  simp only [writeDefaults]
  rw [writePA_ps, writePA_ps, alookup_writePS_ne _ _ _ (by decide),
    alookup_writePS_ne _ _ _ (by decide), alookup_writePS_ne _ _ _ (by decide),
    alookup_writePS_self, alookup_writePS_ne _ _ _ (by decide)]

theorem WD_ps_pbc (c : StructureStorage) (s : AtomicStructure)
    (idOpt : Option String) (i a : Nat) :
    alookup (writeDefaults c s idOpt i a).per_structure_arrays "pbc" =
      (alookup c.per_structure_arrays "pbc").map
        (fun arr => { arr with data := setSlice arr.data i [encBools s.pbc] }) := by
  simp only [writeDefaults]
  rw [writePA_ps, writePA_ps, alookup_writePS_ne _ _ _ (by decide),
    alookup_writePS_ne _ _ _ (by decide), alookup_writePS_self,
    alookup_writePS_ne _ _ _ (by decide), alookup_writePS_ne _ _ _ (by decide)]

theorem WD_ps_start (c : StructureStorage) (s : AtomicStructure)
    (idOpt : Option String) (i a : Nat) :
    alookup (writeDefaults c s idOpt i a).per_structure_arrays "start" =
      (alookup c.per_structure_arrays "start").map
        (fun arr => { arr with data := setSlice arr.data i [encNat a] }) := by
  simp only [writeDefaults]
  rw [writePA_ps, writePA_ps, alookup_writePS_ne _ _ _ (by decide),
    alookup_writePS_self, alookup_writePS_ne _ _ _ (by decide),
    alookup_writePS_ne _ _ _ (by decide), alookup_writePS_ne _ _ _ (by decide)]

theorem WD_ps_len (c : StructureStorage) (s : AtomicStructure)
    (idOpt : Option String) (i a : Nat) :
    alookup (writeDefaults c s idOpt i a).per_structure_arrays "length" =
      (alookup c.per_structure_arrays "length").map
        (fun arr => { arr with data := setSlice arr.data i [encNat s.symbols.length] }) := by
  simp only [writeDefaults]
  rw [writePA_ps, writePA_ps, alookup_writePS_self,
    alookup_writePS_ne _ _ _ (by decide), alookup_writePS_ne _ _ _ (by decide),
    alookup_writePS_ne _ _ _ (by decide), alookup_writePS_ne _ _ _ (by decide)]

theorem WD_pa_symbols (c : StructureStorage) (s : AtomicStructure)
    (idOpt : Option String) (i a : Nat) :
    alookup (writeDefaults c s idOpt i a).per_atom_arrays "symbols" =
      (alookup c.per_atom_arrays "symbols").map
        (fun arr => { arr with data := setSlice arr.data a (s.symbols.map encStr) }) := by
  simp only [writeDefaults]
  rw [alookup_writePA_ne _ _ _ (by decide), alookup_writePA_self, writePS_pa, writePS_pa,
    writePS_pa, writePS_pa, writePS_pa]

theorem WD_pa_positions (c : StructureStorage) (s : AtomicStructure)
    (idOpt : Option String) (i a : Nat) :
    alookup (writeDefaults c s idOpt i a).per_atom_arrays "positions" =
      (alookup c.per_atom_arrays "positions").map
        (fun arr => { arr with data := setSlice arr.data a s.positions }) := by
  simp only [writeDefaults]
  rw [alookup_writePA_self, alookup_writePA_ne _ _ _ (by decide), writePS_pa, writePS_pa,
    writePS_pa, writePS_pa, writePS_pa]

theorem WD_pa_other (c : StructureStorage) (s : AtomicStructure)
    (idOpt : Option String) (i a : Nat) {name : String}
    (h1 : name ≠ "symbols") (h2 : name ≠ "positions") :
    alookup (writeDefaults c s idOpt i a).per_atom_arrays name =
      alookup c.per_atom_arrays name := by
  simp only [writeDefaults]
  rw [alookup_writePA_ne _ _ _ h2, alookup_writePA_ne _ _ _ h1, writePS_pa, writePS_pa,
    writePS_pa, writePS_pa, writePS_pa]

theorem validB_writeDefaults {c : StructureStorage} (s : AtomicStructure)
    (idOpt : Option String) {i a : Nat} (hv : validB c = true)
    (hwf : swfB s = true)
    (hi : i < c.num_structures_alloc)
    (ha : a + s.symbols.length ≤ c.num_atoms_alloc) :
    validB (writeDefaults c s idOpt i a) = true := by
  have hpos : s.positions.length = s.symbols.length := by
    simp only [swfB, Bool.and_eq_true, beq_iff_eq] at hwf
    exact hwf.1
  simp only [writeDefaults]
  have v1 := validB_writePS "identifier" (encStr (idOpt.getD (toString i))) hv hi
  have v2 := validB_writePS "cell" s.cell v1 hi
  have v3 := validB_writePS "pbc" (encBools s.pbc) v2 hi
  have v4 := validB_writePS "start" (encNat a) v3 hi
  have v5 := validB_writePS "length" (encNat s.symbols.length) v4 hi
  have v6 := validB_writePA "symbols" (s.symbols.map encStr) v5 (by simpa using ha)
  exact validB_writePA "positions" s.positions v6 (by rw [hpos]; exact ha)

/-! ### Effects of the lazy spins stage -/

theorem writeSpins_none (c : StructureStorage) (a : Nat) : writeSpins c none a = c := rfl

theorem writeSpins_ps (c : StructureStorage) (spOpt : Option (List NDVal)) (a : Nat) :
    (writeSpins c spOpt a).per_structure_arrays = c.per_structure_arrays := by
  cases spOpt with
  | none => rfl
  | some sp =>
    simp only [writeSpins]
    rw [writePA_ps, add_array_atom_ps]

theorem writeSpins_csi (c : StructureStorage) (spOpt : Option (List NDVal)) (a : Nat) :
    (writeSpins c spOpt a).current_structure_index = c.current_structure_index := by
  cases spOpt with
  | none => rfl
  | some sp =>
    simp only [writeSpins]
    rw [writePA_csi, add_array_csi]

theorem writeSpins_cai (c : StructureStorage) (spOpt : Option (List NDVal)) (a : Nat) :
    (writeSpins c spOpt a).current_atom_index = c.current_atom_index := by
  cases spOpt with
  | none => rfl
  | some sp =>
    simp only [writeSpins]
    rw [writePA_cai, add_array_cai]

theorem writeSpins_salloc (c : StructureStorage) (spOpt : Option (List NDVal)) (a : Nat) :
    (writeSpins c spOpt a).num_structures_alloc = c.num_structures_alloc := by
  cases spOpt with
  | none => rfl
  | some sp =>
    simp only [writeSpins]
    rw [writePA_salloc, add_array_salloc]

theorem writeSpins_aalloc (c : StructureStorage) (spOpt : Option (List NDVal)) (a : Nat) :
    (writeSpins c spOpt a).num_atoms_alloc = c.num_atoms_alloc := by
  cases spOpt with
  | none => rfl
  | some sp =>
    simp only [writeSpins]
    rw [writePA_aalloc, add_array_aalloc]

theorem writeSpins_pa_ne (c : StructureStorage) (spOpt : Option (List NDVal)) (a : Nat)
    {name : String} (h : name ≠ "spins") :
    alookup (writeSpins c spOpt a).per_atom_arrays name = alookup c.per_atom_arrays name := by
  cases spOpt with
  | none => rfl
  | some sp =>
    simp only [writeSpins]
    rw [alookup_writePA_ne _ _ _ h, alookup_add_array_atom_ne _ _ _ h]

theorem writeSpins_pa_spins_fresh {c : StructureStorage} (sp : List NDVal) (a : Nat)
    (h : alookup c.per_atom_arrays "spins" = none) :
    alookup (writeSpins c (some sp) a).per_atom_arrays "spins" =
      some ⟨headShape sp, DType.real, defaultFill DType.real (headShape sp),
        setSlice (List.replicate c.num_atoms_alloc (defaultFill DType.real (headShape sp))) a sp⟩ := by
  simp only [writeSpins]
  rw [alookup_writePA_self, alookup_add_array_atom_self_none _ _ _ h]
  rfl

theorem writeSpins_pa_spins_reg {c : StructureStorage} (sp : List NDVal) (a : Nat)
    {arr : ArrInfo} (h : alookup c.per_atom_arrays "spins" = some arr) :
    alookup (writeSpins c (some sp) a).per_atom_arrays "spins" =
      some { arr with data := setSlice arr.data a sp } := by
  simp only [writeSpins]
  rw [alookup_writePA_self, add_array_atom_of_some _ _ _ h, h]
  rfl

theorem validB_writeSpins {c : StructureStorage} (spOpt : Option (List NDVal)) {a : Nat}
    (hv : validB c = true)
    (hlen : ∀ sp, spOpt = some sp → a + sp.length ≤ c.num_atoms_alloc) :
    validB (writeSpins c spOpt a) = true := by
  cases spOpt with
  | none => exact hv
  | some sp =>
    simp only [writeSpins]
    apply validB_writePA
    · exact validB_add_array _ _ _ _ _ hv
    · rw [add_array_aalloc]
      exact hlen sp rfl

/-! ### Effects of keyword-value ingestion -/

theorem addKwarg_csi (c : StructureStorage) (i a n : Nat) (nm : String) (v : NDVal) :
    (addKwarg c i a n nm v).current_structure_index = c.current_structure_index := by
  obtain ⟨sh, fl⟩ := v
  cases sh with
  | nil =>
    simp only [addKwarg]
    rw [writePS_csi, add_array_csi]
  | cons d rest =>
    simp only [addKwarg]
    by_cases hd : d = n
    · rw [if_pos hd, writePA_csi, add_array_csi]
    · rw [if_neg hd, writePS_csi, add_array_csi]

theorem addKwarg_cai (c : StructureStorage) (i a n : Nat) (nm : String) (v : NDVal) :
    (addKwarg c i a n nm v).current_atom_index = c.current_atom_index := by
  obtain ⟨sh, fl⟩ := v
  cases sh with
  | nil =>
    simp only [addKwarg]
    rw [writePS_cai, add_array_cai]
  | cons d rest =>
    simp only [addKwarg]
    by_cases hd : d = n
    · rw [if_pos hd, writePA_cai, add_array_cai]
    · rw [if_neg hd, writePS_cai, add_array_cai]

theorem addKwarg_salloc (c : StructureStorage) (i a n : Nat) (nm : String) (v : NDVal) :
    (addKwarg c i a n nm v).num_structures_alloc = c.num_structures_alloc := by
  obtain ⟨sh, fl⟩ := v
  cases sh with
  | nil =>
    simp only [addKwarg]
    rw [writePS_salloc, add_array_salloc]
  | cons d rest =>
    simp only [addKwarg]
    by_cases hd : d = n
    · rw [if_pos hd, writePA_salloc, add_array_salloc]
    · rw [if_neg hd, writePS_salloc, add_array_salloc]

theorem addKwarg_aalloc (c : StructureStorage) (i a n : Nat) (nm : String) (v : NDVal) :
    (addKwarg c i a n nm v).num_atoms_alloc = c.num_atoms_alloc := by
  obtain ⟨sh, fl⟩ := v
  cases sh with
  | nil =>
    simp only [addKwarg]
    rw [writePS_aalloc, add_array_aalloc]
  | cons d rest =>
    simp only [addKwarg]
    by_cases hd : d = n
    · rw [if_pos hd, writePA_aalloc, add_array_aalloc]
    · rw [if_neg hd, writePS_aalloc, add_array_aalloc]

theorem alookup_addKwarg_ps_ne (c : StructureStorage) (i a n : Nat) {nm name : String}
    (v : NDVal) (h : name ≠ nm) :
    alookup (addKwarg c i a n nm v).per_structure_arrays name =
      alookup c.per_structure_arrays name := by
  obtain ⟨sh, fl⟩ := v
  cases sh with
  | nil =>
    simp only [addKwarg]
    rw [alookup_writePS_ne _ _ _ h, alookup_add_array_struct_ne _ _ _ h]
  | cons d rest =>
    simp only [addKwarg]
    by_cases hd : d = n
    · rw [if_pos hd, writePA_ps, add_array_atom_ps]
    · rw [if_neg hd, alookup_writePS_ne _ _ _ h, alookup_add_array_struct_ne _ _ _ h]

theorem alookup_addKwarg_pa_ne (c : StructureStorage) (i a n : Nat) {nm name : String}
    (v : NDVal) (h : name ≠ nm) :
    alookup (addKwarg c i a n nm v).per_atom_arrays name =
      alookup c.per_atom_arrays name := by
  obtain ⟨sh, fl⟩ := v
  cases sh with
  | nil =>
    simp only [addKwarg]
    rw [writePS_pa, add_array_struct_pa]
  | cons d rest =>
    simp only [addKwarg]
    by_cases hd : d = n
    · rw [if_pos hd, alookup_writePA_ne _ _ _ h, alookup_add_array_atom_ne _ _ _ h]
    · rw [if_neg hd, writePS_pa, add_array_struct_pa]

theorem validB_addKwarg {c : StructureStorage} {i a n : Nat} (nm : String) (v : NDVal)
    (hv : validB c = true) (hi : i < c.num_structures_alloc)
    (ha : a + n ≤ c.num_atoms_alloc) :
    validB (addKwarg c i a n nm v) = true := by
  obtain ⟨sh, fl⟩ := v
  cases sh with
  | nil =>
    simp only [addKwarg]
    exact validB_writePS _ _ (validB_add_array _ _ _ _ _ hv)
      (by rw [add_array_salloc]; exact hi)
  | cons d rest =>
    simp only [addKwarg]
    by_cases hd : d = n
    · rw [if_pos hd]
      apply validB_writePA _ _ (validB_add_array _ _ _ _ _ hv)
      rw [add_array_aalloc, chunkRows_length]
      exact ha
    · rw [if_neg hd]
      exact validB_writePS _ _ (validB_add_array _ _ _ _ _ hv)
        (by rw [add_array_salloc]; exact hi)

theorem foldKwargs_csi (extra : List (String × NDVal)) (i a n : Nat) :
    ∀ c : StructureStorage,
      (extra.foldl (fun cc kv => addKwarg cc i a n kv.1 kv.2) c).current_structure_index =
        c.current_structure_index := by
  induction extra with
  | nil => intro c; rfl
  | cons kv ex ih =>
    intro c
    rw [List.foldl_cons, ih, addKwarg_csi]

theorem foldKwargs_cai (extra : List (String × NDVal)) (i a n : Nat) :
    ∀ c : StructureStorage,
      (extra.foldl (fun cc kv => addKwarg cc i a n kv.1 kv.2) c).current_atom_index =
        c.current_atom_index := by
  induction extra with
  | nil => intro c; rfl
  | cons kv ex ih =>
    intro c
    rw [List.foldl_cons, ih, addKwarg_cai]

theorem foldKwargs_salloc (extra : List (String × NDVal)) (i a n : Nat) :
    ∀ c : StructureStorage,
      (extra.foldl (fun cc kv => addKwarg cc i a n kv.1 kv.2) c).num_structures_alloc =
        c.num_structures_alloc := by
  induction extra with
  | nil => intro c; rfl
  | cons kv ex ih =>
    intro c
    rw [List.foldl_cons, ih, addKwarg_salloc]

theorem foldKwargs_aalloc (extra : List (String × NDVal)) (i a n : Nat) :
    ∀ c : StructureStorage,
      (extra.foldl (fun cc kv => addKwarg cc i a n kv.1 kv.2) c).num_atoms_alloc =
        c.num_atoms_alloc := by
  induction extra with
  | nil => intro c; rfl
  | cons kv ex ih =>
    intro c
    rw [List.foldl_cons, ih, addKwarg_aalloc]

theorem validB_foldKwargs (extra : List (String × NDVal)) (i a n : Nat) :
    ∀ c : StructureStorage, validB c = true → i < c.num_structures_alloc →
      a + n ≤ c.num_atoms_alloc →
      validB (extra.foldl (fun cc kv => addKwarg cc i a n kv.1 kv.2) c) = true := by
  induction extra with
  | nil => intro c hv _ _; exact hv
  | cons kv ex ih =>
    intro c hv hi ha
    rw [List.foldl_cons]
    exact ih _ (validB_addKwarg _ _ hv hi ha)
      (by rw [addKwarg_salloc]; exact hi) (by rw [addKwarg_aalloc]; exact ha)

theorem alookup_foldKwargs_ps_ne (extra : List (String × NDVal)) (i a n : Nat)
    (name : String) (h : ∀ kv ∈ extra, kv.1 ≠ name) :
    ∀ c : StructureStorage,
      alookup ((extra.foldl (fun cc kv => addKwarg cc i a n kv.1 kv.2) c)).per_structure_arrays
        name = alookup c.per_structure_arrays name := by
  induction extra with
  | nil => intro c; rfl
  | cons kv ex ih =>
    intro c
    rw [List.foldl_cons, ih (fun q hq => h q (List.mem_cons_of_mem _ hq)),
      alookup_addKwarg_ps_ne _ _ _ _ _ (Ne.symm (h kv (List.mem_cons_self _ _)))]

theorem alookup_foldKwargs_pa_ne (extra : List (String × NDVal)) (i a n : Nat)
    (name : String) (h : ∀ kv ∈ extra, kv.1 ≠ name) :
    ∀ c : StructureStorage,
      alookup ((extra.foldl (fun cc kv => addKwarg cc i a n kv.1 kv.2) c)).per_atom_arrays
        name = alookup c.per_atom_arrays name := by
  induction extra with
  | nil => intro c; rfl
  | cons kv ex ih =>
    intro c
    rw [List.foldl_cons, ih (fun q hq => h q (List.mem_cons_of_mem _ hq)),
      alookup_addKwarg_pa_ne _ _ _ _ _ (Ne.symm (h kv (List.mem_cons_self _ _)))]

/-! ### Cursor advance -/

theorem bumpCursors_ps (c : StructureStorage) (i a : Nat) :
    (bumpCursors c i a).per_structure_arrays = c.per_structure_arrays := rfl

theorem bumpCursors_pa (c : StructureStorage) (i a : Nat) :
    (bumpCursors c i a).per_atom_arrays = c.per_atom_arrays := rfl

theorem bumpCursors_csi (c : StructureStorage) (i a : Nat) :
    (bumpCursors c i a).current_structure_index = i := rfl

theorem bumpCursors_cai (c : StructureStorage) (i a : Nat) :
    (bumpCursors c i a).current_atom_index = a := rfl

theorem validB_bump {c : StructureStorage} {i a : Nat} (hv : validB c = true)
    (hi : i ≤ c.num_structures_alloc) (ha : a ≤ c.num_atoms_alloc) :
    validB (bumpCursors c i a) = true := by
  obtain ⟨hps, hpa, hsc, hac, h5, h6, h7, h8, h9, h10, h11⟩ := validB_elim hv
  exact validB_intro _ hps hpa hi ha h5 h6 h7 h8 h9 h10 h11

/-! ### Assembled facts about add_structure -/

theorem add_structure_unfold (c : StructureStorage) (s : AtomicStructure)
    (idOpt : Option String) (extra : List (String × NDVal)) :
    add_structure c s idOpt extra =
      bumpCursors
        (extra.foldl
          (fun cc kv => addKwarg cc c.current_structure_index c.current_atom_index
            s.symbols.length kv.1 kv.2)
          (writeSpins
            (writeDefaults (reserve_atoms (reserve_structures c 1) s.symbols.length) s idOpt
              c.current_structure_index c.current_atom_index)
            s.spins c.current_atom_index))
        (c.current_structure_index + 1) (c.current_atom_index + s.symbols.length) := rfl

theorem add_structure_csi (c : StructureStorage) (s : AtomicStructure)
    (idOpt : Option String) (extra : List (String × NDVal)) :
    (add_structure c s idOpt extra).current_structure_index =
      c.current_structure_index + 1 := rfl

theorem add_structure_cai (c : StructureStorage) (s : AtomicStructure)
    (idOpt : Option String) (extra : List (String × NDVal)) :
    (add_structure c s idOpt extra).current_atom_index =
      c.current_atom_index + s.symbols.length := rfl

theorem validB_add_structure {c : StructureStorage} {s : AtomicStructure}
    (idOpt : Option String) (extra : List (String × NDVal))
    (hv : validB c = true) (hwf : swfB s = true) :
    validB (add_structure c s idOpt extra) = true := by
  rw [add_structure_unfold]
  have hsp : ∀ sp, s.spins = some sp → sp.length = s.symbols.length := by
    intro sp hspin
    simp only [swfB, hspin, Bool.and_eq_true, beq_iff_eq] at hwf
    exact hwf.2
  have hv1 := validB_reserve s.symbols.length hv
  have hi1 : c.current_structure_index <
      (reserve_atoms (reserve_structures c 1) s.symbols.length).num_structures_alloc := by
    have := reserve_salloc_ge c s.symbols.length
    omega
  have ha1 : c.current_atom_index + s.symbols.length ≤
      (reserve_atoms (reserve_structures c 1) s.symbols.length).num_atoms_alloc :=
    reserve_aalloc_ge c s.symbols.length
  have hv2 := validB_writeDefaults s idOpt hv1 hwf hi1 ha1
  have hv3 := validB_writeSpins s.spins hv2 (by
    intro sp hspin
    rw [writeDefaults_aalloc, hsp sp hspin]
    exact ha1)
  have hv4 := validB_foldKwargs extra _ _ _ _ hv3
    (by rw [writeSpins_salloc, writeDefaults_salloc]; exact hi1)
    (by rw [writeSpins_aalloc, writeDefaults_aalloc]; exact ha1)
  apply validB_bump hv4
  · rw [foldKwargs_salloc, writeSpins_salloc, writeDefaults_salloc]
    omega
  · rw [foldKwargs_aalloc, writeSpins_aalloc, writeDefaults_aalloc]
    exact ha1

/-! ### Generic row and slice readback through a lookup transformation -/

theorem WD_ps_other (c : StructureStorage) (s : AtomicStructure)
    (idOpt : Option String) (i a : Nat) {name : String}
    (h1 : name ≠ "identifier") (h2 : name ≠ "cell") (h3 : name ≠ "pbc")
    (h4 : name ≠ "start") (h5 : name ≠ "length") :
    alookup (writeDefaults c s idOpt i a).per_structure_arrays name =
      alookup c.per_structure_arrays name := by
  simp only [writeDefaults]
  rw [writePA_ps, writePA_ps, alookup_writePS_ne _ _ _ h5, alookup_writePS_ne _ _ _ h4,
    alookup_writePS_ne _ _ _ h3, alookup_writePS_ne _ _ _ h2, alookup_writePS_ne _ _ _ h1]

theorem psRow_lookup_map_row {c' c : StructureStorage} {name : String} {i : Nat} {v : NDVal}
    (hlook : alookup c'.per_structure_arrays name =
      (alookup c.per_structure_arrays name).map
        (fun arr => { arr with data := setSlice arr.data i [v] }))
    (hv : validB c = true) (hi : i < c.num_structures_alloc)
    (hsome : (alookup c.per_structure_arrays name).isSome = true) :
    psRow c' name i = some v := by
  rw [psRow_eq, hlook]
  cases hx : alookup c.per_structure_arrays name with
  | none => rw [hx] at hsome; exact absurd hsome (by simp)
  | some arr =>
    have hlen := (validB_parts hv).1 name arr hx
    simp only [Option.map_some2, Option.some_bind2]
    show (setSlice arr.data i [v])[i]? = some v
    have h0 : (setSlice arr.data i [v])[i + 0]? = [v][0]? :=
      getElem?_setSlice_mid (by simp) (by simp only [List.length_cons, List.length_nil]; omega)
    simpa using h0

theorem psRow_lookup_map_row_ne {c' c : StructureStorage} {name : String} {i : Nat}
    {v : NDVal} {j : Nat}
    (hlook : alookup c'.per_structure_arrays name =
      (alookup c.per_structure_arrays name).map
        (fun arr => { arr with data := setSlice arr.data i [v] }))
    (hv : validB c = true) (hi : i < c.num_structures_alloc) (hij : j ≠ i) :
    psRow c' name j = psRow c name j := by
  rw [psRow_eq, psRow_eq, hlook]
  cases hx : alookup c.per_structure_arrays name with
  | none => rfl
  | some arr =>
    have hlen := (validB_parts hv).1 name arr hx
    simp only [Option.map_some2, Option.some_bind2]
    show (setSlice arr.data i [v])[j]? = arr.data[j]?
    rcases Nat.lt_or_ge j i with hlt | hge
    · exact getElem?_setSlice_lt hlt (by omega)
    · exact getElem?_setSlice_ge (by simp only [List.length_cons, List.length_nil]; omega)
        (by simp only [List.length_cons, List.length_nil]; omega)

theorem paSlice_lookup_map_self {c' c : StructureStorage} {name : String} {a : Nat}
    {vs : List NDVal}
    (hlook : alookup c'.per_atom_arrays name =
      (alookup c.per_atom_arrays name).map
        (fun arr => { arr with data := setSlice arr.data a vs }))
    (hv : validB c = true) (hb : a + vs.length ≤ c.num_atoms_alloc)
    (hsome : (alookup c.per_atom_arrays name).isSome = true) :
    paSlice c' name a vs.length = vs := by
  rw [paSlice_eq, hlook]
  cases hx : alookup c.per_atom_arrays name with
  | none => rw [hx] at hsome; exact absurd hsome (by simp)
  | some arr =>
    have hlen := (validB_parts hv).2.1 name arr hx
    simp only [Option.map_some2, Option.getD_some]
    exact drop_take_setSlice (by omega)

theorem paSlice_lookup_map_before {c' c : StructureStorage} {name : String} {a : Nat}
    {vs : List NDVal} {b l : Nat}
    (hlook : alookup c'.per_atom_arrays name =
      (alookup c.per_atom_arrays name).map
        (fun arr => { arr with data := setSlice arr.data a vs }))
    (hv : validB c = true) (hb : a + vs.length ≤ c.num_atoms_alloc) (hbl : b + l ≤ a) :
    paSlice c' name b l = paSlice c name b l := by
  rw [paSlice_eq, paSlice_eq, hlook]
  cases hx : alookup c.per_atom_arrays name with
  | none => rfl
  | some arr =>
    have hlen := (validB_parts hv).2.1 name arr hx
    simp only [Option.map_some2, Option.getD_some]
    apply List.ext_getElem?
    intro m
    by_cases hm : m < l
    · rw [List.getElem?_take_of_lt hm, List.getElem?_take_of_lt hm, List.getElem?_drop,
        List.getElem?_drop]
      exact getElem?_setSlice_lt (by omega) (by omega)
    · rw [List.getElem?_eq_none, List.getElem?_eq_none]
      · simp only [List.length_take]
        omega
      · simp only [List.length_take]
        omega

theorem psRow_bump (c : StructureStorage) (i a : Nat) (name : String) (j : Nat) :
    psRow (bumpCursors c i a) name j = psRow c name j := rfl

theorem paSlice_bump (c : StructureStorage) (i a : Nat) (name : String) (b l : Nat) :
    paSlice (bumpCursors c i a) name b l = paSlice c name b l := rfl

theorem psRow_writeSpins (c : StructureStorage) (spOpt : Option (List NDVal)) (a : Nat)
    (name : String) (j : Nat) :
    psRow (writeSpins c spOpt a) name j = psRow c name j := by
  rw [psRow_eq, psRow_eq, writeSpins_ps]

theorem paSlice_writeSpins_ne (c : StructureStorage) (spOpt : Option (List NDVal)) (a : Nat)
    {name : String} (b l : Nat) (h : name ≠ "spins") :
    paSlice (writeSpins c spOpt a) name b l = paSlice c name b l := by
  rw [paSlice_eq, paSlice_eq, writeSpins_pa_ne _ _ _ h]

/-! ### Arithmetic of build histories -/

theorem totalLen_append (ss1 ss2 : List (AtomicStructure × Option String)) :
    totalLen (ss1 ++ ss2) = totalLen ss1 + totalLen ss2 := by
  simp [totalLen]

theorem totalLen_take_le (ss : List (AtomicStructure × Option String)) (j : Nat) :
    totalLen (ss.take j) ≤ totalLen ss := by
  conv_rhs => rw [← List.take_append_drop j ss]
  rw [totalLen_append]
  omega

theorem totalLen_take_succ {ss : List (AtomicStructure × Option String)} {j : Nat}
    {e : AtomicStructure × Option String} (h : ss[j]? = some e) :
    totalLen (ss.take (j + 1)) = totalLen (ss.take j) + e.1.symbols.length := by
  rw [List.take_succ, h, totalLen_append]
  rfl

theorem take_append_singleton_of_le {α : Type} (ss : List α) (e : α) {j : Nat}
    (h : j ≤ ss.length) : (ss ++ [e]).take j = ss.take j := by
  rw [List.take_append_eq_append_take]
  have h0 : j - ss.length = 0 := by omega
  simp [h0]

theorem getElem?_append_singleton_self {α : Type} (ss : List α) (e : α) :
    (ss ++ [e])[ss.length]? = some e := by
  rw [List.getElem?_append_right (Nat.le_refl _)]
  simp

/-! ### First-spins bookkeeping -/

theorem firstSpins_append_some {ss : List (AtomicStructure × Option String)}
    {sp : List NDVal} (e : AtomicStructure × Option String)
    (h : firstSpins ss = some sp) : firstSpins (ss ++ [e]) = some sp := by
  induction ss with
  | nil => simp [firstSpins] at h
  | cons f fs ih =>
    simp only [firstSpins, List.cons_append] at h ⊢
    cases hf : f.1.spins with
    | some sp1 =>
      rw [hf] at h
      exact h
    | none =>
      rw [hf] at h
      exact ih h

theorem firstSpins_append_none {ss : List (AtomicStructure × Option String)}
    (e : AtomicStructure × Option String) (h : firstSpins ss = none) :
    firstSpins (ss ++ [e]) =
      (match e.1.spins with
       | some sp => some sp
       | none => none) := by
  induction ss with
  | nil =>
    simp only [List.nil_append, firstSpins]
  | cons f fs ih =>
    simp only [firstSpins, List.cons_append] at h ⊢
    cases hf : f.1.spins with
    | some sp1 => rw [hf] at h; cases h
    | none =>
      rw [hf] at h
      exact ih h

theorem firstSpins_none_of_all {ss : List (AtomicStructure × Option String)}
    (h : ∀ f ∈ ss, f.1.spins = none) : firstSpins ss = none := by
  induction ss with
  | nil => rfl
  | cons f fs ih =>
    simp only [firstSpins]
    rw [h f (List.mem_cons_self _ _)]
    exact ih (fun q hq => h q (List.mem_cons_of_mem _ hq))

theorem all_none_of_firstSpins_none {ss : List (AtomicStructure × Option String)}
    (h : firstSpins ss = none) : ∀ f ∈ ss, f.1.spins = none := by
  induction ss with
  | nil => intro f hf; simp at hf
  | cons g gs ih =>
    intro f hf
    simp only [firstSpins] at h
    cases hg : g.1.spins with
    | some sp => rw [hg] at h; cases h
    | none =>
      rw [hg] at h
      rcases List.mem_cons.mp hf with rfl | hmem
      · exact hg
      · exact ih h f hmem

theorem firstSpins_isSome_of_mem {ss : List (AtomicStructure × Option String)}
    {f : AtomicStructure × Option String} {sp : List NDVal}
    (hmem : f ∈ ss) (hsp : f.1.spins = some sp) : (firstSpins ss).isSome = true := by
  cases hfs : firstSpins ss with
  | some sp1 => rfl
  | none =>
    have := all_none_of_firstSpins_none hfs f hmem
    rw [hsp] at this
    cases this

theorem writeSpins_pa_spins_reg_map {c : StructureStorage} (sp : List NDVal) (a : Nat)
    (hsome : (alookup c.per_atom_arrays "spins").isSome = true) :
    alookup (writeSpins c (some sp) a).per_atom_arrays "spins" =
      (alookup c.per_atom_arrays "spins").map
        (fun arr => { arr with data := setSlice arr.data a sp }) := by
  obtain ⟨arr, harr⟩ := Option.isSome_iff_exists.mp hsome
  rw [writeSpins_pa_spins_reg sp a harr, harr]
  rfl

theorem getElem?_append_singleton_gt {α : Type} (ss : List α) (e : α) {j : Nat}
    (h : ss.length < j) : (ss ++ [e])[j]? = none := by
  apply List.getElem?_eq_none
  simp only [List.length_append, List.length_cons, List.length_nil]
  omega

theorem totalLen_singleton (e : AtomicStructure × Option String) :
    totalLen [e] = e.1.symbols.length := by
  simp [totalLen]

theorem take_setSlice_full_of_len {α : Type} {l : List α} {i k : Nat} {vs : List α}
    (hk : vs.length = k) (hle : i + vs.length ≤ l.length) :
    (setSlice l i vs).take (i + k) = l.take i ++ vs := by
  subst hk
  exact take_setSlice_full hle

theorem buildInv_step {ss : List (AtomicStructure × Option String)} {c : StructureStorage}
    (hbi : BuildInv ss c) (e : AtomicStructure × Option String) (hwf : swfB e.1 = true) :
    BuildInv (ss ++ [e]) (stepAdd c e) := by
  obtain ⟨hvc, hcsi, hcai, hident, hcell, hpbc, hstart, hlen, hsyms, hpos, hsL, hpL,
    hspN, hspR, hspS⟩ := hbi
  have hposlen : e.1.positions.length = e.1.symbols.length := by
    simp only [swfB, Bool.and_eq_true, beq_iff_eq] at hwf
    exact hwf.1
  have hsplen : ∀ sp, e.1.spins = some sp → sp.length = e.1.symbols.length := by
    intro sp hsp
    simp only [swfB, hsp, Bool.and_eq_true, beq_iff_eq] at hwf
    exact hwf.2
  have hscap : c.current_structure_index ≤ c.num_structures_alloc := (validB_parts hvc).2.2.1
  have hacap : c.current_atom_index ≤ c.num_atoms_alloc := (validB_parts hvc).2.2.2.1
  set R := reserve_atoms (reserve_structures c 1) e.1.symbols.length with hRdef
  set D := writeDefaults R e.1 e.2 c.current_structure_index c.current_atom_index with hDdef
  set W := writeSpins D e.1.spins c.current_atom_index with hWdef
  have hR : validB R = true := by rw [hRdef]; exact validB_reserve _ hvc
  have hiR : c.current_structure_index < R.num_structures_alloc := by
    rw [hRdef]
    have := reserve_salloc_ge c e.1.symbols.length
    omega
  have haR : c.current_atom_index + e.1.symbols.length ≤ R.num_atoms_alloc := by
    rw [hRdef]
    exact reserve_aalloc_ge c _
  have hD : validB D = true := by
    rw [hDdef]
    exact validB_writeDefaults e.1 e.2 hR hwf hiR haR
  have hDalloc : D.num_atoms_alloc = R.num_atoms_alloc := by
    rw [hDdef, writeDefaults_aalloc]
  have hstep : stepAdd c e = bumpCursors W (c.current_structure_index + 1)
      (c.current_atom_index + e.1.symbols.length) := by
    show add_structure c e.1 e.2 [] = _
    rw [add_structure_unfold, List.foldl_nil, hWdef, hDdef, hRdef]
  have hSpD : alookup D.per_atom_arrays "spins" =
      (alookup c.per_atom_arrays "spins").map
        (growInfo (grownCap c.num_atoms_alloc
          (c.current_atom_index + e.1.symbols.length))) := by
    rw [hDdef, WD_pa_other _ _ _ _ _ (by decide) (by decide), hRdef, alookup_reserve_pa]
  have hIdOld : ∀ j, j < c.current_structure_index →
      psRow W "identifier" j = psRow c "identifier" j := by
    intro j hj
    rw [hWdef, psRow_writeSpins, hDdef,
      psRow_lookup_map_row_ne (WD_ps_identifier R e.1 e.2 _ _) hR hiR (by omega),
      hRdef, psRow_reserve _ _ hvc (by omega)]
  have hIdNew : psRow W "identifier" c.current_structure_index =
      some (encStr (e.2.getD (toString c.current_structure_index))) := by
    rw [hWdef, psRow_writeSpins, hDdef]
    exact psRow_lookup_map_row (WD_ps_identifier R e.1 e.2 _ _) hR hiR
      ((validB_parts hR).2.2.2.2.1)
  have hCellOld : ∀ j, j < c.current_structure_index →
      psRow W "cell" j = psRow c "cell" j := by
    intro j hj
    rw [hWdef, psRow_writeSpins, hDdef,
      psRow_lookup_map_row_ne (WD_ps_cell R e.1 e.2 _ _) hR hiR (by omega),
      hRdef, psRow_reserve _ _ hvc (by omega)]
  have hCellNew : psRow W "cell" c.current_structure_index = some e.1.cell := by
    rw [hWdef, psRow_writeSpins, hDdef]
    exact psRow_lookup_map_row (WD_ps_cell R e.1 e.2 _ _) hR hiR
      ((validB_parts hR).2.2.2.2.2.1)
  have hPbcOld : ∀ j, j < c.current_structure_index →
      psRow W "pbc" j = psRow c "pbc" j := by
    intro j hj
    rw [hWdef, psRow_writeSpins, hDdef,
      psRow_lookup_map_row_ne (WD_ps_pbc R e.1 e.2 _ _) hR hiR (by omega),
      hRdef, psRow_reserve _ _ hvc (by omega)]
  have hPbcNew : psRow W "pbc" c.current_structure_index = some (encBools e.1.pbc) := by
    rw [hWdef, psRow_writeSpins, hDdef]
    exact psRow_lookup_map_row (WD_ps_pbc R e.1 e.2 _ _) hR hiR
      ((validB_parts hR).2.2.2.2.2.2.1)
  have hStartOld : ∀ j, j < c.current_structure_index →
      psRow W "start" j = psRow c "start" j := by
    intro j hj
    rw [hWdef, psRow_writeSpins, hDdef,
      psRow_lookup_map_row_ne (WD_ps_start R e.1 e.2 _ _) hR hiR (by omega),
      hRdef, psRow_reserve _ _ hvc (by omega)]
  have hStartNew : psRow W "start" c.current_structure_index =
      some (encNat c.current_atom_index) := by
    rw [hWdef, psRow_writeSpins, hDdef]
    exact psRow_lookup_map_row (WD_ps_start R e.1 e.2 _ _) hR hiR
      ((validB_parts hR).2.2.2.2.2.2.2.1)
  have hLenOld : ∀ j, j < c.current_structure_index →
      psRow W "length" j = psRow c "length" j := by
    intro j hj
    rw [hWdef, psRow_writeSpins, hDdef,
      psRow_lookup_map_row_ne (WD_ps_len R e.1 e.2 _ _) hR hiR (by omega),
      hRdef, psRow_reserve _ _ hvc (by omega)]
  have hLenNew : psRow W "length" c.current_structure_index =
      some (encNat e.1.symbols.length) := by
    rw [hWdef, psRow_writeSpins, hDdef]
    exact psRow_lookup_map_row (WD_ps_len R e.1 e.2 _ _) hR hiR
      ((validB_parts hR).2.2.2.2.2.2.2.2.1)
  have hSymOld : ∀ b l, b + l ≤ c.current_atom_index →
      paSlice W "symbols" b l = paSlice c "symbols" b l := by
    intro b l hbl
    rw [hWdef, paSlice_writeSpins_ne _ _ _ _ _ (by decide), hDdef,
      paSlice_lookup_map_before (WD_pa_symbols R e.1 e.2 _ _) hR
        (by simpa using haR) hbl,
      hRdef, paSlice_reserve _ _ hvc (by omega)]
  have hSymNew : paSlice W "symbols" c.current_atom_index e.1.symbols.length =
      e.1.symbols.map encStr := by
    have h0 := paSlice_lookup_map_self (WD_pa_symbols R e.1 e.2
        c.current_structure_index c.current_atom_index) hR (by simpa using haR)
      ((validB_parts hR).2.2.2.2.2.2.2.2.2.1)
    rw [hWdef, paSlice_writeSpins_ne _ _ _ _ _ (by decide), hDdef]
    simpa using h0
  have hPosOld : ∀ b l, b + l ≤ c.current_atom_index →
      paSlice W "positions" b l = paSlice c "positions" b l := by
    intro b l hbl
    rw [hWdef, paSlice_writeSpins_ne _ _ _ _ _ (by decide), hDdef,
      paSlice_lookup_map_before (WD_pa_positions R e.1 e.2 _ _) hR
        (by rw [hposlen]; exact haR) hbl,
      hRdef, paSlice_reserve _ _ hvc (by omega)]
  have hPosNew : paSlice W "positions" c.current_atom_index e.1.symbols.length =
      e.1.positions := by
    have h0 := paSlice_lookup_map_self (WD_pa_positions R e.1 e.2
        c.current_structure_index c.current_atom_index) hR (by rw [hposlen]; exact haR)
      ((validB_parts hR).2.2.2.2.2.2.2.2.2.2)
    rw [hposlen] at h0
    rw [hWdef, paSlice_writeSpins_ne _ _ _ _ _ (by decide), hDdef]
    exact h0
  refine ⟨?_, ?_, ?_, ?_, ?_, ?_, ?_, ?_, ?_, ?_, ?_, ?_, ?_, ?_, ?_⟩
  · show validB (stepAdd c e) = true
    exact validB_add_structure e.2 [] hvc hwf
  · show (stepAdd c e).current_structure_index = (ss ++ [e]).length
    rw [hstep, bumpCursors_csi, hcsi]
    simp
  · show (stepAdd c e).current_atom_index = totalLen (ss ++ [e])
    rw [hstep, bumpCursors_cai, hcai, totalLen_append, totalLen_singleton]
  · intro j f hjf
    rw [hstep, psRow_bump]
    rcases Nat.lt_trichotomy j ss.length with hlt | heq | hgt
    · rw [getElem?_append_left_of_lt hlt] at hjf
      rw [hIdOld j (by omega)]
      exact hident j f hjf
    · subst heq
      rw [getElem?_append_singleton_self] at hjf
      have hef : e = f := Option.some.inj hjf
      subst hef
      rw [← hcsi]
      exact hIdNew
    · rw [getElem?_append_singleton_gt _ _ hgt] at hjf
      cases hjf
  · intro j f hjf
    rw [hstep, psRow_bump]
    rcases Nat.lt_trichotomy j ss.length with hlt | heq | hgt
    · rw [getElem?_append_left_of_lt hlt] at hjf
      rw [hCellOld j (by omega)]
      exact hcell j f hjf
    · subst heq
      rw [getElem?_append_singleton_self] at hjf
      have hef : e = f := Option.some.inj hjf
      subst hef
      rw [← hcsi]
      exact hCellNew
    · rw [getElem?_append_singleton_gt _ _ hgt] at hjf
      cases hjf
  · intro j f hjf
    rw [hstep, psRow_bump]
    rcases Nat.lt_trichotomy j ss.length with hlt | heq | hgt
    · rw [getElem?_append_left_of_lt hlt] at hjf
      rw [hPbcOld j (by omega)]
      exact hpbc j f hjf
    · subst heq
      rw [getElem?_append_singleton_self] at hjf
      have hef : e = f := Option.some.inj hjf
      subst hef
      rw [← hcsi]
      exact hPbcNew
    · rw [getElem?_append_singleton_gt _ _ hgt] at hjf
      cases hjf
  · intro j f hjf
    rw [hstep, psRow_bump]
    rcases Nat.lt_trichotomy j ss.length with hlt | heq | hgt
    · rw [getElem?_append_left_of_lt hlt] at hjf
      rw [take_append_singleton_of_le _ _ (Nat.le_of_lt hlt), hStartOld j (by omega)]
      exact hstart j f hjf
    · subst heq
      rw [getElem?_append_singleton_self] at hjf
      have hef : e = f := Option.some.inj hjf
      subst hef
      rw [List.take_left, ← hcsi, ← hcai]
      exact hStartNew
    · rw [getElem?_append_singleton_gt _ _ hgt] at hjf
      cases hjf
  · intro j f hjf
    rw [hstep, psRow_bump]
    rcases Nat.lt_trichotomy j ss.length with hlt | heq | hgt
    · rw [getElem?_append_left_of_lt hlt] at hjf
      rw [hLenOld j (by omega)]
      exact hlen j f hjf
    · subst heq
      rw [getElem?_append_singleton_self] at hjf
      have hef : e = f := Option.some.inj hjf
      subst hef
      rw [← hcsi]
      exact hLenNew
    · rw [getElem?_append_singleton_gt _ _ hgt] at hjf
      cases hjf
  · intro j f hjf
    rw [hstep, paSlice_bump]
    rcases Nat.lt_trichotomy j ss.length with hlt | heq | hgt
    · rw [getElem?_append_left_of_lt hlt] at hjf
      rw [take_append_singleton_of_le _ _ (Nat.le_of_lt hlt)]
      have hb : totalLen (ss.take j) + f.1.symbols.length ≤ c.current_atom_index := by
        rw [hcai, ← totalLen_take_succ hjf]
        exact totalLen_take_le ss (j + 1)
      rw [hSymOld _ _ hb]
      exact hsyms j f hjf
    · subst heq
      rw [getElem?_append_singleton_self] at hjf
      have hef : e = f := Option.some.inj hjf
      subst hef
      rw [List.take_left, ← hcai]
      exact hSymNew
    · rw [getElem?_append_singleton_gt _ _ hgt] at hjf
      cases hjf
  · intro j f hjf
    rw [hstep, paSlice_bump]
    rcases Nat.lt_trichotomy j ss.length with hlt | heq | hgt
    · rw [getElem?_append_left_of_lt hlt] at hjf
      rw [take_append_singleton_of_le _ _ (Nat.le_of_lt hlt)]
      have hb : totalLen (ss.take j) + f.1.symbols.length ≤ c.current_atom_index := by
        rw [hcai, ← totalLen_take_succ hjf]
        exact totalLen_take_le ss (j + 1)
      rw [hPosOld _ _ hb]
      exact hpos j f hjf
    · subst heq
      rw [getElem?_append_singleton_self] at hjf
      have hef : e = f := Option.some.inj hjf
      subst hef
      rw [List.take_left, ← hcai]
      exact hPosNew
    · rw [getElem?_append_singleton_gt _ _ hgt] at hjf
      cases hjf
  · obtain ⟨arrS, harrS⟩ := Option.isSome_iff_exists.mp
      ((validB_parts hvc).2.2.2.2.2.2.2.2.2.1)
    have harrSlen : arrS.data.length = c.num_atoms_alloc :=
      (validB_parts hvc).2.1 "symbols" arrS harrS
    have hold : arrS.data.take c.current_atom_index =
        (ss.map (fun f => f.1.symbols.map encStr)).flatten := by
      rw [paLive_eq, harrS] at hsL
      simpa using hsL
    rw [hstep, paLive_eq, bumpCursors_pa, bumpCursors_cai, hWdef,
      writeSpins_pa_ne _ _ _ (by decide), hDdef, WD_pa_symbols, hRdef,
      alookup_reserve_pa, harrS]
    simp only [Option.map_some2, Option.getD_some]
    have hmlen : (e.1.symbols.map encStr).length = e.1.symbols.length := by simp
    have hglen : (growInfo (grownCap c.num_atoms_alloc
        (c.current_atom_index + e.1.symbols.length)) arrS).data.length =
        grownCap c.num_atoms_alloc (c.current_atom_index + e.1.symbols.length) :=
      growInfo_length arrS harrSlen (grownCap_ge_cap _ _)
    rw [take_setSlice_full_of_len hmlen (by rw [hglen, hmlen]; exact grownCap_ge_need _ _)]
    simp only [growInfo]
    rw [take_append_replicate _ _ _ _ (by omega), hold]
    rw [List.map_append, List.flatten_append]
    simp
  · obtain ⟨arrP, harrP⟩ := Option.isSome_iff_exists.mp
      ((validB_parts hvc).2.2.2.2.2.2.2.2.2.2)
    have harrPlen : arrP.data.length = c.num_atoms_alloc :=
      (validB_parts hvc).2.1 "positions" arrP harrP
    have hold : arrP.data.take c.current_atom_index =
        (ss.map (fun f => f.1.positions)).flatten := by
      rw [paLive_eq, harrP] at hpL
      simpa using hpL
    rw [hstep, paLive_eq, bumpCursors_pa, bumpCursors_cai, hWdef,
      writeSpins_pa_ne _ _ _ (by decide), hDdef, WD_pa_positions, hRdef,
      alookup_reserve_pa, harrP]
    simp only [Option.map_some2, Option.getD_some]
    have hglen : (growInfo (grownCap c.num_atoms_alloc
        (c.current_atom_index + e.1.symbols.length)) arrP).data.length =
        grownCap c.num_atoms_alloc (c.current_atom_index + e.1.symbols.length) :=
      growInfo_length arrP harrPlen (grownCap_ge_cap _ _)
    rw [take_setSlice_full_of_len hposlen (by rw [hglen, hposlen]; exact grownCap_ge_need _ _)]
    simp only [growInfo]
    rw [take_append_replicate _ _ _ _ (by omega), hold]
    rw [List.map_append, List.flatten_append]
    simp
  · intro hall
    have he : e.1.spins = none := hall e (by simp)
    have hss : ∀ f ∈ ss, f.1.spins = none := fun f hf => hall f (by simp [hf])
    rw [hstep, bumpCursors_pa, hWdef, he, writeSpins_none, hSpD, hspN hss]
    rfl
  · intro sp0 hfs0
    cases hfs : firstSpins ss with
    | some sp1 =>
      rw [firstSpins_append_some e hfs] at hfs0
      have hsp01 : sp1 = sp0 := Option.some.inj hfs0
      subst hsp01
      obtain ⟨arr, harr, hshape⟩ := hspR sp1 hfs
      have harrD : alookup D.per_atom_arrays "spins" = some (growInfo (grownCap
          c.num_atoms_alloc (c.current_atom_index + e.1.symbols.length)) arr) := by
        rw [hSpD, harr]
        rfl
      rw [hstep, bumpCursors_pa, hWdef]
      cases hesp : e.1.spins with
      | none =>
        rw [writeSpins_none]
        exact ⟨_, harrD, by rw [growInfo_shape]; exact hshape⟩
      | some spE =>
        rw [writeSpins_pa_spins_reg spE _ harrD]
        exact ⟨_, rfl, by rw [growInfo_shape] at *; exact hshape⟩
    | none =>
      rw [firstSpins_append_none e hfs] at hfs0
      cases hesp : e.1.spins with
      | none =>
        rw [hesp] at hfs0
        cases hfs0
      | some spE =>
        rw [hesp] at hfs0
        have hspE0 : spE = sp0 := Option.some.inj hfs0
        subst hspE0
        have hnone : alookup D.per_atom_arrays "spins" = none := by
          rw [hSpD, hspN (all_none_of_firstSpins_none hfs)]
          rfl
        rw [hstep, bumpCursors_pa, hWdef, hesp, writeSpins_pa_spins_fresh spE _ hnone]
        exact ⟨_, rfl, rfl⟩
  · intro j f sp hjf hsp
    rw [hstep, paSlice_bump]
    rcases Nat.lt_trichotomy j ss.length with hlt | heq | hgt
    · rw [getElem?_append_left_of_lt hlt] at hjf
      rw [take_append_singleton_of_le _ _ (Nat.le_of_lt hlt)]
      have hb : totalLen (ss.take j) + f.1.symbols.length ≤ c.current_atom_index := by
        rw [hcai, ← totalLen_take_succ hjf]
        exact totalLen_take_le ss (j + 1)
      have hregc : (alookup c.per_atom_arrays "spins").isSome = true := by
        have hfsS := firstSpins_isSome_of_mem (List.getElem?_mem hjf) hsp
        obtain ⟨sp1, hfs1⟩ := Option.isSome_iff_exists.mp hfsS
        obtain ⟨arr, harr, -⟩ := hspR sp1 hfs1
        rw [harr]
        rfl
      have hregD : (alookup D.per_atom_arrays "spins").isSome = true := by
        obtain ⟨arr, harr⟩ := Option.isSome_iff_exists.mp hregc
        rw [hSpD, harr]
        rfl
      have hWspin : paSlice W "spins" (totalLen (ss.take j)) f.1.symbols.length =
          paSlice c "spins" (totalLen (ss.take j)) f.1.symbols.length := by
        rw [hWdef]
        cases hesp : e.1.spins with
        | none =>
          rw [writeSpins_none]
          rw [paSlice_eq, paSlice_eq, hSpD]
          obtain ⟨arr, harr⟩ := Option.isSome_iff_exists.mp hregc
          have harrlen : arr.data.length = c.num_atoms_alloc :=
            (validB_parts hvc).2.1 "spins" arr harr
          rw [harr]
          simp only [Option.map_some2, Option.getD_some]
          show (((arr.data ++ List.replicate _ arr.fill).drop _).take _) = _
          rw [drop_take_append_replicate _ _ _ (by omega)]
        | some spE =>
          have hE : c.current_atom_index + spE.length ≤ D.num_atoms_alloc := by
            rw [hDalloc, hsplen spE hesp]
            exact haR
          rw [paSlice_lookup_map_before (writeSpins_pa_spins_reg_map spE _ hregD) hD
            hE hb]
          rw [paSlice_eq, paSlice_eq, hSpD]
          obtain ⟨arr, harr⟩ := Option.isSome_iff_exists.mp hregc
          have harrlen : arr.data.length = c.num_atoms_alloc :=
            (validB_parts hvc).2.1 "spins" arr harr
          rw [harr]
          simp only [Option.map_some2, Option.getD_some]
          show (((arr.data ++ List.replicate _ arr.fill).drop _).take _) = _
          rw [drop_take_append_replicate _ _ _ (by omega)]
      rw [hWspin]
      exact hspS j f sp hjf hsp
    · subst heq
      rw [getElem?_append_singleton_self] at hjf
      have hef : e = f := Option.some.inj hjf
      subst hef
      rw [List.take_left, ← hcai]
      have hsplenE : sp.length = e.1.symbols.length := hsplen sp hsp
      rw [hWdef, hsp]
      cases hregc : alookup c.per_atom_arrays "spins" with
      | some arr =>
        have hregD : (alookup D.per_atom_arrays "spins").isSome = true := by
          rw [hSpD, hregc]
          rfl
        have h0 := paSlice_lookup_map_self (writeSpins_pa_spins_reg_map sp _ hregD) hD
          (by rw [hDalloc, hsplenE]; exact haR) hregD
        rw [hsplenE] at h0
        exact h0
      | none =>
        have hnoneD : alookup D.per_atom_arrays "spins" = none := by
          rw [hSpD, hregc]
          rfl
        rw [paSlice_eq, writeSpins_pa_spins_fresh sp _ hnoneD]
        simp only [Option.map_some2, Option.getD_some]
        show ((setSlice (List.replicate D.num_atoms_alloc _) c.current_atom_index sp).drop
          c.current_atom_index).take e.1.symbols.length = sp
        rw [← hsplenE]
        apply drop_take_setSlice
        rw [List.length_replicate, hDalloc, hsplenE]
        exact haR
    · rw [getElem?_append_singleton_gt _ _ hgt] at hjf
      cases hjf

/-! ### The build invariant holds for every build history -/

theorem create_eq (ns na : Nat) : create ns na = ⟨ns, na, 0, 0,
    [("identifier", ⟨[], DType.str, defaultFill DType.str [],
        List.replicate ns (defaultFill DType.str [])⟩),
     ("cell", ⟨[3, 3], DType.real, defaultFill DType.real [3, 3],
        List.replicate ns (defaultFill DType.real [3, 3])⟩),
     ("pbc", ⟨[3], DType.bool, defaultFill DType.bool [3],
        List.replicate ns (defaultFill DType.bool [3])⟩),
     ("start", ⟨[], DType.int, defaultFill DType.int [],
        List.replicate ns (defaultFill DType.int [])⟩),
     ("length", ⟨[], DType.int, defaultFill DType.int [],
        List.replicate ns (defaultFill DType.int [])⟩)],
    [("symbols", ⟨[], DType.str, defaultFill DType.str [],
        List.replicate na (defaultFill DType.str [])⟩),
     ("positions", ⟨[3], DType.real, defaultFill DType.real [3],
        List.replicate na (defaultFill DType.real [3])⟩)]⟩ := rfl

theorem validB_create (ns na : Nat) : validB (create ns na) = true := by
  rw [create_eq]
  apply validB_intro
  · intro p hp
    simp only [List.mem_cons, List.not_mem_nil, or_false] at hp
    rcases hp with rfl | rfl | rfl | rfl | rfl <;> simp
  · intro p hp
    simp only [List.mem_cons, List.not_mem_nil, or_false] at hp
    rcases hp with rfl | rfl <;> simp
  · exact Nat.zero_le _
  · exact Nat.zero_le _
  · simp [alookup]
  · simp [alookup]
  · simp [alookup]
  · simp [alookup]
  · simp [alookup]
  · simp [alookup]
  · simp [alookup]

theorem buildInv_nil (ns na : Nat) : BuildInv [] (create ns na) := by
  refine ⟨validB_create ns na, rfl, rfl, ?_, ?_, ?_, ?_, ?_, ?_, ?_, ?_, ?_, ?_, ?_, ?_⟩
  · intro j f h; simp at h
  · intro j f h; simp at h
  · intro j f h; simp at h
  · intro j f h; simp at h
  · intro j f h; simp at h
  · intro j f h; simp at h
  · intro j f h; simp at h
  · rw [create_eq]; rfl
  · rw [create_eq]; rfl
  · intro _
    rw [create_eq]
    simp [alookup]
  · intro sp0 h
    simp [firstSpins] at h
  · intro j f sp h
    simp at h

theorem buildInv_fold (ss : List (AtomicStructure × Option String)) :
    ∀ (pre : List (AtomicStructure × Option String)) (c : StructureStorage),
      BuildInv pre c → (∀ f ∈ ss, swfB f.1 = true) →
      BuildInv (pre ++ ss) (ss.foldl stepAdd c) := by
  induction ss with
  | nil =>
    intro pre c h _
    rw [List.foldl_nil, List.append_nil]
    exact h
  | cons e es ih =>
    intro pre c h hwf
    rw [List.foldl_cons]
    have h1 := buildInv_step h e (hwf e (List.mem_cons_self _ _))
    have h2 := ih (pre ++ [e]) _ h1 (fun f hf => hwf f (List.mem_cons_of_mem _ hf))
    rw [List.append_assoc] at h2
    exact h2

theorem buildInv_build (ns na : Nat) (ss : List (AtomicStructure × Option String))
    (hwf : ∀ f ∈ ss, swfB f.1 = true) : BuildInv ss (build ns na ss) := by
  have h := buildInv_fold ss [] (create ns na) (buildInv_nil ns na) hwf
  rw [List.nil_append] at h
  exact h

/-! ### Reading a structure back from a built container -/

theorem lt_of_getElem?_some {α : Type} {l : List α} {i : Nat} {a : α}
    (h : l[i]? = some a) : i < l.length := by
  by_contra hc
  push_neg at hc
  rw [List.getElem?_eq_none hc] at h
  cases h

theorem isSome_of_psRow_some {c : StructureStorage} {name : String} {j : Nat} {v : NDVal}
    (h : psRow c name j = some v) :
    (alookup c.per_structure_arrays name).isSome = true := by
  rw [psRow_eq] at h
  cases hx : alookup c.per_structure_arrays name with
  | none => rw [hx] at h; cases h
  | some a => rfl

theorem buildInv_atomRange {ss : List (AtomicStructure × Option String)}
    {c : StructureStorage} (hbi : BuildInv ss c) {j : Nat}
    {f : AtomicStructure × Option String} (hjf : ss[j]? = some f) :
    atomRange c j = some (totalLen (ss.take j), f.1.symbols.length) := by
  obtain ⟨sa, hsa⟩ := Option.isSome_iff_exists.mp
    ((validB_parts hbi.va).2.2.2.2.2.2.2.1)
  obtain ⟨la, hla⟩ := Option.isSome_iff_exists.mp
    ((validB_parts hbi.va).2.2.2.2.2.2.2.2.1)
  have hS := hbi.startRow j f hjf
  have hL := hbi.lenRow j f hjf
  rw [psRow_eq, hsa, Option.some_bind2] at hS
  rw [psRow_eq, hla, Option.some_bind2] at hL
  simp only [atomRange, hsa, hla, hS, hL, asNat_encNat]

theorem buildInv_get_structure_general {ss : List (AtomicStructure × Option String)}
    {c : StructureStorage} (hbi : BuildInv ss c) {i : Nat}
    {f : AtomicStructure × Option String} (hif : ss[i]? = some f) :
    get_structure c (Frame.idx i) =
      some ⟨f.1.symbols, f.1.positions, f.1.cell, f.1.pbc,
        match alookup c.per_atom_arrays "spins" with
        | none => none
        | some spa =>
          some ((spa.data.drop (totalLen (ss.take i))).take f.1.symbols.length)⟩ := by
  have hi : i < c.current_structure_index := by
    rw [hbi.csi]
    exact lt_of_getElem?_some hif
  have htr := translate_idx_of_lt hi
  have hAR := buildInv_atomRange hbi hif
  obtain ⟨syma, hsyma⟩ := Option.isSome_iff_exists.mp
    ((validB_parts hbi.va).2.2.2.2.2.2.2.2.2.1)
  obtain ⟨posa, hposa⟩ := Option.isSome_iff_exists.mp
    ((validB_parts hbi.va).2.2.2.2.2.2.2.2.2.2)
  obtain ⟨cella, hcella⟩ := Option.isSome_iff_exists.mp
    ((validB_parts hbi.va).2.2.2.2.2.1)
  obtain ⟨pbca, hpbca⟩ := Option.isSome_iff_exists.mp
    ((validB_parts hbi.va).2.2.2.2.2.2.1)
  have hsymS : (syma.data.drop (totalLen (ss.take i))).take f.1.symbols.length =
      f.1.symbols.map encStr := by
    have h0 := hbi.symsSlice i f hif
    rw [paSlice_eq, hsyma] at h0
    simpa using h0
  have hposS : (posa.data.drop (totalLen (ss.take i))).take f.1.symbols.length =
      f.1.positions := by
    have h0 := hbi.posSlice i f hif
    rw [paSlice_eq, hposa] at h0
    simpa using h0
  have hcellR : cella.data[i]? = some f.1.cell := by
    have h0 := hbi.cellRow i f hif
    rw [psRow_eq, hcella, Option.some_bind2] at h0
    exact h0
  have hpbcR : pbca.data[i]? = some (encBools f.1.pbc) := by
    have h0 := hbi.pbcRow i f hif
    rw [psRow_eq, hpbca, Option.some_bind2] at h0
    exact h0
  simp only [get_structure, htr, hAR, hsyma, hposa, hcella, hpbca, hsymS,
    decodeStrs_map_encStr, hcellR, hpbcR, decodeBools_encBools, hposS]

theorem buildInv_get_structure {ss : List (AtomicStructure × Option String)}
    {c : StructureStorage} (hbi : BuildInv ss c) {i : Nat}
    {f : AtomicStructure × Option String} (hif : ss[i]? = some f)
    (hsp : (∀ g ∈ ss, g.1.spins = none) ∨ (∀ g ∈ ss, (g.1.spins).isSome = true)) :
    get_structure c (Frame.idx i) = some f.1 := by
  rw [buildInv_get_structure_general hbi hif]
  have hspinsField : (match alookup c.per_atom_arrays "spins" with
      | none => none
      | some spa =>
        some ((spa.data.drop (totalLen (ss.take i))).take f.1.symbols.length)) =
      f.1.spins := by
    cases hsp with
    | inl hnone =>
      rw [hbi.spinsNone hnone]
      exact (hnone f (List.getElem?_mem hif)).symm
    | inr hsome =>
      obtain ⟨sp, hspf⟩ := Option.isSome_iff_exists.mp (hsome f (List.getElem?_mem hif))
      have hfs : (firstSpins ss).isSome = true :=
        firstSpins_isSome_of_mem (List.getElem?_mem hif) hspf
      obtain ⟨sp1, hfs1⟩ := Option.isSome_iff_exists.mp hfs
      obtain ⟨spa, hspa, -⟩ := hbi.spinsReg sp1 hfs1
      simp only [hspa]
      have h0 := hbi.spinsSlice i f sp hif hspf
      rw [paSlice_eq, hspa] at h0
      simp only [Option.map_some2, Option.getD_some] at h0
      rw [h0, hspf]
  rw [hspinsField]

/-- Counterexample to claim C1 as stated: in a container holding a spinless
structure followed by a spin-carrying one, the lazily registered spins array
makes get_structure attach fill-valued magnetic moments to the spinless
structure, so the returned object is not equal to the ingested one. -/
theorem get_structure_mixed_spins_ce :
    get_structure wMix (Frame.idx 0) ≠ some wFe := by decide

/-- Claim C1 (amended): for every build history whose structures either all
lack or all carry magnetic moments, and every index i, get_structure at i
returns an object exactly equal to the structure passed to the i-th
add_structure call, with species order, positions, cell, boundary flags and
magnetic moments all compared equal. -/
theorem get_structure_eq_added (ns na : Nat)
    (ss : List (AtomicStructure × Option String))
    (hwf : ∀ f ∈ ss, swfB f.1 = true)
    (hhom : (∀ g ∈ ss, g.1.spins = none) ∨ (∀ g ∈ ss, (g.1.spins).isSome = true))
    (i : Nat) (f : AtomicStructure × Option String) (hif : ss[i]? = some f) :
    get_structure (build ns na ss) (Frame.idx i) = some f.1 :=
  buildInv_get_structure (buildInv_build ns na ss hwf) hif hhom

/-- Witness for the amended claim C1 at a concrete two-structure container. -/
theorem get_structure_eq_added_witness :
    get_structure (build 1 1 [(wFe, some "Fe2"), (wMg, none)]) (Frame.idx 0) = some wFe :=
  get_structure_eq_added 1 1 [(wFe, some "Fe2"), (wMg, none)] (by decide)
    (Or.inl (by decide)) 0 (wFe, some "Fe2") (by decide)

/-! ### Claim C9: lazy spins registration and restoration -/

/-- Claim C9: whenever some added structure carries magnetic moments, a
per-atom spins array is lazily registered with element shape inferred from
the first such structure; get_structure for every spin-carrying structure
returns an object whose spins are non-None and exactly the ingested moments
(whatever their shape, scalar or 3-vector); and the spins array is present
only if some added structure carried magnetic moments. -/
theorem spins_lazily_registered_and_restored (ns na : Nat)
    (ss : List (AtomicStructure × Option String))
    (hwf : ∀ f ∈ ss, swfB f.1 = true) :
    (∀ sp0, firstSpins ss = some sp0 →
      ∃ arr, alookup (build ns na ss).per_atom_arrays "spins" = some arr ∧
        arr.shape = headShape sp0) ∧
    (∀ i f sp, ss[i]? = some f → f.1.spins = some sp →
      ∃ t, get_structure (build ns na ss) (Frame.idx i) = some t ∧ t.spins = some sp) ∧
    ((∀ f ∈ ss, f.1.spins = none) →
      alookup (build ns na ss).per_atom_arrays "spins" = none) := by
  have hbi := buildInv_build ns na ss hwf
  refine ⟨hbi.spinsReg, ?_, hbi.spinsNone⟩
  intro i f sp hif hsp
  have hfs := firstSpins_isSome_of_mem (List.getElem?_mem hif) hsp
  obtain ⟨sp1, hfs1⟩ := Option.isSome_iff_exists.mp hfs
  obtain ⟨spa, hspa, -⟩ := hbi.spinsReg sp1 hfs1
  refine ⟨_, buildInv_get_structure_general hbi hif, ?_⟩
  show (match alookup (build ns na ss).per_atom_arrays "spins" with
    | none => none
    | some spa =>
      some ((spa.data.drop (totalLen (ss.take i))).take f.1.symbols.length)) = some sp
  simp only [hspa]
  have h0 := hbi.spinsSlice i f sp hif hsp
  rw [paSlice_eq, hspa] at h0
  simp only [Option.map_some2, Option.getD_some] at h0
  rw [h0]

/-- Witness for claim C9: a concrete container with scalar spins restores
them through get_structure. -/
theorem spins_lazily_registered_and_restored_witness :
    ∃ t, get_structure (build 1 1 [(wSpinFe, none)]) (Frame.idx 0) = some t ∧
      t.spins = some wSpin1 :=
  (spins_lazily_registered_and_restored 1 1 [(wSpinFe, none)] (by decide)).2.1
    0 (wSpinFe, none) wSpin1 (by decide) (by decide)

/-! ### Claim C10: get_elements lists exactly the distinct stored symbols -/

theorem filterMap_asStr_map_encStr (xs : List String) :
    (xs.map encStr).filterMap NDVal.asStr = xs := by
  induction xs with
  | nil => rfl
  | cons x xs ih => simp [List.filterMap_cons, encStr, NDVal.asStr, ih]

theorem filterMap_asStr_flatten (ls : List (List String)) :
    ((ls.map (fun xs => xs.map encStr)).flatten).filterMap NDVal.asStr = ls.flatten := by
  induction ls with
  | nil => rfl
  | cons l ls ih =>
    simp only [List.map_cons, List.flatten_cons, List.filterMap_append,
      filterMap_asStr_map_encStr, ih]

theorem symbolsLive_eq_paLive (c : StructureStorage) :
    symbolsLive c = paLive c "symbols" := rfl

theorem map_syms_enc (ss : List (AtomicStructure × Option String)) :
    ss.map (fun e => e.1.symbols.map encStr) =
      (ss.map (fun e => e.1.symbols)).map (fun xs => xs.map encStr) := by
  rw [List.map_map]
  rfl

/-- Claim C10: get_elements returns exactly the distinct chemical element
symbols occurring across all stored structures: no duplicates, and membership
coincides with occurrence in some added structure. -/
theorem get_elements_distinct (ns na : Nat)
    (ss : List (AtomicStructure × Option String))
    (hwf : ∀ f ∈ ss, swfB f.1 = true) :
    (get_elements (build ns na ss)).Nodup ∧
    (∀ el, el ∈ get_elements (build ns na ss) ↔ ∃ f ∈ ss, el ∈ f.1.symbols) := by
  have hbi := buildInv_build ns na ss hwf
  have hlive := hbi.symsLive
  have hge : get_elements (build ns na ss) =
      ((ss.map (fun f => f.1.symbols)).flatten).dedup := by
    unfold get_elements
    rw [symbolsLive_eq_paLive, hlive, map_syms_enc, filterMap_asStr_flatten]
  constructor
  · rw [hge]
    exact List.nodup_dedup _
  · intro el
    rw [hge, List.mem_dedup, List.mem_flatten]
    constructor
    · rintro ⟨l, hl, hel⟩
      obtain ⟨f, hf, rfl⟩ := List.mem_map.mp hl
      exact ⟨f, hf, hel⟩
    · rintro ⟨f, hf, hel⟩
      exact ⟨f.1.symbols, List.mem_map.mpr ⟨f, hf, rfl⟩, hel⟩

/-- Witness for claim C10 at a concrete two-structure container. -/
theorem get_elements_distinct_witness :
    (get_elements (build 1 1 [(wFe, some "Fe2"), (wMg, none)])).Nodup ∧
    (∀ el, el ∈ get_elements (build 1 1 [(wFe, some "Fe2"), (wMg, none)]) ↔
      ∃ f ∈ [(wFe, some "Fe2"), (wMg, (none : Option String))], el ∈ f.1.symbols) :=
  get_elements_distinct 1 1 [(wFe, some "Fe2"), (wMg, none)] (by decide)

/-! ### Claim C5: capacity growth is observably transparent -/

theorem psLive_eq_of_rows_eq {c1 c2 : StructureStorage} {name : String}
    (hv1 : validB c1 = true) (hv2 : validB c2 = true)
    (hs1 : (alookup c1.per_structure_arrays name).isSome = true)
    (hs2 : (alookup c2.per_structure_arrays name).isSome = true)
    (hcsi : c1.current_structure_index = c2.current_structure_index)
    (hrows : ∀ j, j < c1.current_structure_index → psRow c1 name j = psRow c2 name j) :
    psLive c1 name = psLive c2 name := by
  obtain ⟨arr1, h1⟩ := Option.isSome_iff_exists.mp hs1
  obtain ⟨arr2, h2⟩ := Option.isSome_iff_exists.mp hs2
  have hl1 : arr1.data.length = c1.num_structures_alloc := (validB_parts hv1).1 name arr1 h1
  have hl2 : arr2.data.length = c2.num_structures_alloc := (validB_parts hv2).1 name arr2 h2
  have hc1 : c1.current_structure_index ≤ arr1.data.length := by
    have := (validB_parts hv1).2.2.1
    omega
  have hc2 : c2.current_structure_index ≤ arr2.data.length := by
    have := (validB_parts hv2).2.2.1
    omega
  rw [psLive_eq, psLive_eq, h1, h2]
  simp only [Option.map_some2, Option.getD_some]
  apply List.ext_getElem?
  intro j
  by_cases hj : j < c1.current_structure_index
  · rw [List.getElem?_take_of_lt hj, List.getElem?_take_of_lt (by omega)]
    have hr := hrows j hj
    rw [psRow_eq, psRow_eq, h1, h2, Option.some_bind2, Option.some_bind2] at hr
    exact hr
  · rw [List.getElem?_eq_none, List.getElem?_eq_none]
    · simp only [List.length_take]
      omega
    · simp only [List.length_take]
      omega

/-- Claim C5: a container pre-sized with capacities smaller than eventual use
(so that at least one capacity growth is triggered) ends, after the same
sequence of add_structure calls, in the same observable state as a container
pre-sized exactly or over-sized: equal cursors and equal live contents of the
symbols, positions, cell and identifier arrays. -/
theorem growth_transparent (n1 a1 n2 a2 : Nat)
    (ss : List (AtomicStructure × Option String))
    (hwf : ∀ f ∈ ss, swfB f.1 = true)
    (hgrow : n1 < ss.length ∨ a1 < totalLen ss) :
    (build n1 a1 ss).current_structure_index = (build n2 a2 ss).current_structure_index ∧
    (build n1 a1 ss).current_atom_index = (build n2 a2 ss).current_atom_index ∧
    paLive (build n1 a1 ss) "symbols" = paLive (build n2 a2 ss) "symbols" ∧
    paLive (build n1 a1 ss) "positions" = paLive (build n2 a2 ss) "positions" ∧
    psLive (build n1 a1 ss) "cell" = psLive (build n2 a2 ss) "cell" ∧
    psLive (build n1 a1 ss) "identifier" = psLive (build n2 a2 ss) "identifier" := by
  have h1 := buildInv_build n1 a1 ss hwf
  have h2 := buildInv_build n2 a2 ss hwf
  have hcsi : (build n1 a1 ss).current_structure_index =
      (build n2 a2 ss).current_structure_index := by
    rw [h1.csi, h2.csi]
  have hcai : (build n1 a1 ss).current_atom_index =
      (build n2 a2 ss).current_atom_index := by
    rw [h1.cai, h2.cai]
  refine ⟨hcsi, hcai, ?_, ?_, ?_, ?_⟩
  · rw [h1.symsLive, h2.symsLive]
  · rw [h1.posLive, h2.posLive]
  · apply psLive_eq_of_rows_eq h1.va h2.va ((validB_parts h1.va).2.2.2.2.2.1)
      ((validB_parts h2.va).2.2.2.2.2.1) hcsi
    intro j hj
    have hlt : j < ss.length := by
      rw [← h1.csi]
      exact hj
    have hf : ss[j]? = some (ss.get ⟨j, hlt⟩) := List.getElem?_eq_getElem hlt
    rw [h1.cellRow j _ hf, h2.cellRow j _ hf]
  · apply psLive_eq_of_rows_eq h1.va h2.va ((validB_parts h1.va).2.2.2.2.1)
      ((validB_parts h2.va).2.2.2.2.1) hcsi
    intro j hj
    have hlt : j < ss.length := by
      rw [← h1.csi]
      exact hj
    have hf : ss[j]? = some (ss.get ⟨j, hlt⟩) := List.getElem?_eq_getElem hlt
    rw [h1.identRow j _ hf, h2.identRow j _ hf]

/-- Witness for claim C5: the concrete two-structure history, built once with
under-sized capacities (forcing growth) and once over-sized. -/
theorem growth_transparent_witness :
    (build 1 1 [(wFe, some "Fe2"), (wMg, none)]).current_structure_index =
      (build 5 10 [(wFe, some "Fe2"), (wMg, none)]).current_structure_index ∧
    (build 1 1 [(wFe, some "Fe2"), (wMg, none)]).current_atom_index =
      (build 5 10 [(wFe, some "Fe2"), (wMg, none)]).current_atom_index ∧
    paLive (build 1 1 [(wFe, some "Fe2"), (wMg, none)]) "symbols" =
      paLive (build 5 10 [(wFe, some "Fe2"), (wMg, none)]) "symbols" ∧
    paLive (build 1 1 [(wFe, some "Fe2"), (wMg, none)]) "positions" =
      paLive (build 5 10 [(wFe, some "Fe2"), (wMg, none)]) "positions" ∧
    psLive (build 1 1 [(wFe, some "Fe2"), (wMg, none)]) "cell" =
      psLive (build 5 10 [(wFe, some "Fe2"), (wMg, none)]) "cell" ∧
    psLive (build 1 1 [(wFe, some "Fe2"), (wMg, none)]) "identifier" =
      psLive (build 5 10 [(wFe, some "Fe2"), (wMg, none)]) "identifier" :=
  growth_transparent 1 1 5 10 [(wFe, some "Fe2"), (wMg, none)] (by decide)
    (Or.inl (by decide))

/-! ### Claim C7: omitted identifiers default to the stringified index -/

theorem get_array_ps {c : StructureStorage} (name : String) {j : Nat}
    (htr : translate_frame c (Frame.idx j) = some j)
    (hsome : (alookup c.per_structure_arrays name).isSome = true) :
    get_array c name (Frame.idx j) = psRow c name j := by
  obtain ⟨arr, harr⟩ := Option.isSome_iff_exists.mp hsome
  simp only [get_array, htr, harr, psRow_eq, Option.some_bind2]

/-- Claim C7: when the identifier argument of add_structure is omitted, the
identifier stored for the new structure is the stringified structure index at
insertion time: get_array of "identifier" at that index yields the encoded
string of the index. -/
theorem default_identifier_is_index (c : StructureStorage) (s : AtomicStructure)
    (extra : List (String × NDVal)) (hv : validB c = true)
    (hx : ∀ kv ∈ extra, kv.1 ≠ "identifier") :
    get_array (add_structure c s none extra) "identifier"
      (Frame.idx (num_structures c)) =
      some (encStr (toString (num_structures c))) := by
  have hR := validB_reserve s.symbols.length hv
  have hiR : c.current_structure_index <
      (reserve_atoms (reserve_structures c 1) s.symbols.length).num_structures_alloc := by
    have := reserve_salloc_ge c s.symbols.length
    omega
  have hrow : psRow (add_structure c s none extra) "identifier"
      c.current_structure_index = some (encStr (toString c.current_structure_index)) := by
    rw [add_structure_unfold, psRow_bump, psRow_eq,
      alookup_foldKwargs_ps_ne extra _ _ _ "identifier" hx, ← psRow_eq, psRow_writeSpins]
    have h0 := psRow_lookup_map_row
      (WD_ps_identifier (reserve_atoms (reserve_structures c 1) s.symbols.length) s none
        c.current_structure_index c.current_atom_index) hR hiR
      ((validB_parts hR).2.2.2.2.1)
    simpa using h0
  have htr : translate_frame (add_structure c s none extra)
      (Frame.idx (num_structures c)) = some (num_structures c) := by
    apply translate_idx_of_lt
    rw [add_structure_csi]
    show c.current_structure_index < c.current_structure_index + 1
    omega
  rw [get_array_ps "identifier" htr (isSome_of_psRow_some hrow)]
  exact hrow

/-- Witness for claim C7 at a concrete container holding two structures. -/
theorem default_identifier_is_index_witness :
    get_array (add_structure wC wMg none []) "identifier"
      (Frame.idx (num_structures wC)) =
      some (encStr (toString (num_structures wC))) :=
  default_identifier_is_index wC wMg [] (by decide) (by decide)

/-! ### Claim C6: kwarg per-kind inference and readback -/

theorem psRow_add_array_atom (c : StructureStorage) (nm : String) (sh : List Nat)
    (dt : DType) (fill : NDVal) (name : String) (j : Nat) :
    psRow (add_array c nm sh dt fill Per.atom) name j = psRow c name j := by
  rw [psRow_eq, psRow_eq, add_array_atom_ps]

theorem atomRange_of_psRows {c : StructureStorage} {i A L : Nat}
    (hs : psRow c "start" i = some (encNat A))
    (hl : psRow c "length" i = some (encNat L)) :
    atomRange c i = some (A, L) := by
  obtain ⟨sa, hsa⟩ := Option.isSome_iff_exists.mp (isSome_of_psRow_some hs)
  obtain ⟨la, hla⟩ := Option.isSome_iff_exists.mp (isSome_of_psRow_some hl)
  rw [psRow_eq, hsa, Option.some_bind2] at hs
  rw [psRow_eq, hla, Option.some_bind2] at hl
  simp only [atomRange, hsa, hla, hs, hl, asNat_encNat]

theorem get_array_bump_writePS_fresh {c0 : StructureStorage} {name : String}
    (sh : List Nat) (dt : DType) (fill w : NDVal) {i : Nat} (ia an : Nat)
    (hfps : alookup c0.per_structure_arrays name = none)
    (hi : i < c0.num_structures_alloc)
    (hii : i < ia) :
    get_array (bumpCursors (writePS (add_array c0 name sh dt fill Per.struct) name i w) ia an)
      name (Frame.idx i) = some w := by
  have htr : translate_frame
      (bumpCursors (writePS (add_array c0 name sh dt fill Per.struct) name i w) ia an)
      (Frame.idx i) = some i := by
    apply translate_idx_of_lt
    rw [bumpCursors_csi]
    exact hii
  have hlook : alookup
      (bumpCursors (writePS (add_array c0 name sh dt fill Per.struct) name i
        w) ia an).per_structure_arrays name =
      some ⟨sh, dt, fill, setSlice (List.replicate c0.num_structures_alloc fill) i [w]⟩ := by
    rw [bumpCursors_ps, alookup_writePS_self, alookup_add_array_struct_self_none _ _ _ hfps]
    rfl
  simp only [get_array, htr, hlook]
  have h0 : (setSlice (List.replicate c0.num_structures_alloc fill) i [w])[i + 0]? = [w][0]? :=
    getElem?_setSlice_mid (by simp)
      (by simp only [List.length_cons, List.length_nil, List.length_replicate]; omega)
  simpa using h0

/-- Claim C6 (amended): for an extra keyword value passed to add_structure under
a fresh name, the per kind is inferred from the value's leading dimension: when
it equals the structure's atom count the value is registered and stored as a
per-atom array and read back exactly; a scalar value is registered and stored
per structure and read back exactly; any other value is registered and stored
per structure, with a unit leading dimension stripped both from the registered
shape and from the value that get_array returns, so the read-back equals the
supplied value only when its leading dimension was not 1. -/
theorem add_structure_kwarg_inference (c : StructureStorage) (s : AtomicStructure)
    (idOpt : Option String) (name : String) (v : NDVal)
    (hv : validB c = true)
    (hfps : alookup c.per_structure_arrays name = none)
    (hfpa : alookup c.per_atom_arrays name = none)
    (hnsp : name ≠ "spins")
    (hflat : v.flat.length = v.shape.prod) :
    (∀ rest, v.shape = s.symbols.length :: rest →
      (∃ arr, alookup (add_structure c s idOpt [(name, v)]).per_atom_arrays name =
          some arr ∧ arr.shape = rest) ∧
      get_array (add_structure c s idOpt [(name, v)]) name
        (Frame.idx (num_structures c)) = some v) ∧
    (v.shape = [] →
      (∃ arr, alookup (add_structure c s idOpt [(name, v)]).per_structure_arrays name =
          some arr ∧ arr.shape = []) ∧
      get_array (add_structure c s idOpt [(name, v)]) name
        (Frame.idx (num_structures c)) = some v) ∧
    (∀ d rest, v.shape = d :: rest → d ≠ s.symbols.length →
      (∃ arr, alookup (add_structure c s idOpt [(name, v)]).per_structure_arrays name =
          some arr ∧ arr.shape = (if d = 1 then rest else d :: rest)) ∧
      get_array (add_structure c s idOpt [(name, v)]) name
        (Frame.idx (num_structures c)) =
        some (if d = 1 then (⟨rest, v.flat⟩ : NDVal) else v)) := by
  obtain ⟨sh, fl⟩ := v
  have hflat2 : fl.length = sh.prod := hflat
  obtain ⟨-, -, -, -, hId, hCe, hPb, hSt, hLe, hSy, hPo⟩ := validB_elim hv
  have hneq : ∀ k : String, (alookup c.per_structure_arrays k).isSome = true → name ≠ k := by
    intro k hk he
    rw [← he, hfps] at hk
    simp at hk
  have hneqa : ∀ k : String, (alookup c.per_atom_arrays k).isSome = true → name ≠ k := by
    intro k hk he
    rw [← he, hfpa] at hk
    simp at hk
  have hnid := hneq "identifier" hId
  have hnce := hneq "cell" hCe
  have hnpb := hneq "pbc" hPb
  have hnst := hneq "start" hSt
  have hnle := hneq "length" hLe
  have hnsy := hneqa "symbols" hSy
  have hnpo := hneqa "positions" hPo
  set R := reserve_atoms (reserve_structures c 1) s.symbols.length with hRdef
  have hvR : validB R = true := by
    rw [hRdef]
    exact validB_reserve s.symbols.length hv
  have hiR : c.current_structure_index < R.num_structures_alloc := by
    rw [hRdef]
    have := reserve_salloc_ge c s.symbols.length
    omega
  have haR : c.current_atom_index + s.symbols.length ≤ R.num_atoms_alloc := by
    rw [hRdef]
    exact reserve_aalloc_ge c s.symbols.length
  set W := writeSpins (writeDefaults R s idOpt c.current_structure_index c.current_atom_index)
    s.spins c.current_atom_index with hWdef
  have hWsal : W.num_structures_alloc = R.num_structures_alloc := by
    rw [hWdef, writeSpins_salloc, writeDefaults_salloc]
  have hWaal : W.num_atoms_alloc = R.num_atoms_alloc := by
    rw [hWdef, writeSpins_aalloc, writeDefaults_aalloc]
  have hWps : alookup W.per_structure_arrays name = none := by
    rw [hWdef, writeSpins_ps, WD_ps_other _ _ _ _ _ hnid hnce hnpb hnst hnle, hRdef,
      alookup_reserve_ps, hfps]
    rfl
  have hWpa : alookup W.per_atom_arrays name = none := by
    rw [hWdef, writeSpins_pa_ne _ _ _ hnsp, WD_pa_other _ _ _ _ _ hnsy hnpo, hRdef,
      alookup_reserve_pa, hfpa]
    rfl
  have hst : psRow W "start" c.current_structure_index =
      some (encNat c.current_atom_index) := by
    rw [hWdef, psRow_writeSpins]
    exact psRow_lookup_map_row (WD_ps_start R s idOpt c.current_structure_index
      c.current_atom_index) hvR hiR ((validB_parts hvR).2.2.2.2.2.2.2.1)
  have hln : psRow W "length" c.current_structure_index =
      some (encNat s.symbols.length) := by
    rw [hWdef, psRow_writeSpins]
    exact psRow_lookup_map_row (WD_ps_len R s idOpt c.current_structure_index
      c.current_atom_index) hvR hiR ((validB_parts hvR).2.2.2.2.2.2.2.2.1)
  have hC : add_structure c s idOpt [(name, ⟨sh, fl⟩)] =
      bumpCursors (addKwarg W c.current_structure_index c.current_atom_index
        s.symbols.length name ⟨sh, fl⟩)
        (c.current_structure_index + 1) (c.current_atom_index + s.symbols.length) := by
    rw [add_structure_unfold, List.foldl_cons, List.foldl_nil, ← hRdef, ← hWdef]
  have hns : num_structures c = c.current_structure_index := rfl
  refine ⟨?_, ?_, ?_⟩
  · intro rest hsh
    have hsh2 : sh = s.symbols.length :: rest := hsh
    subst hsh2
    have hred : addKwarg W c.current_structure_index c.current_atom_index s.symbols.length
        name ⟨s.symbols.length :: rest, fl⟩ =
        writePA (add_array W name rest (dtypeOf ⟨s.symbols.length :: rest, fl⟩)
          (defaultFill (dtypeOf ⟨s.symbols.length :: rest, fl⟩) rest) Per.atom) name
          c.current_atom_index (chunkRows rest s.symbols.length fl) := by
      simp only [addKwarg]
      rw [if_pos trivial]
    constructor
    · rw [hC, hred]
      exact ⟨⟨rest, dtypeOf ⟨s.symbols.length :: rest, fl⟩,
          defaultFill (dtypeOf ⟨s.symbols.length :: rest, fl⟩) rest,
          setSlice (List.replicate W.num_atoms_alloc
            (defaultFill (dtypeOf ⟨s.symbols.length :: rest, fl⟩) rest))
            c.current_atom_index (chunkRows rest s.symbols.length fl)⟩,
        by rw [bumpCursors_pa, alookup_writePA_self,
             alookup_add_array_atom_self_none _ _ _ hWpa]
           rfl,
        rfl⟩
    · rw [hC, hred, hns]
      have htr : translate_frame
          (bumpCursors (writePA (add_array W name rest (dtypeOf ⟨s.symbols.length :: rest, fl⟩)
            (defaultFill (dtypeOf ⟨s.symbols.length :: rest, fl⟩) rest) Per.atom) name
            c.current_atom_index (chunkRows rest s.symbols.length fl))
            (c.current_structure_index + 1) (c.current_atom_index + s.symbols.length))
          (Frame.idx c.current_structure_index) = some c.current_structure_index := by
        apply translate_idx_of_lt
        rw [bumpCursors_csi]
        omega
      have hps2 : alookup
          (bumpCursors (writePA (add_array W name rest (dtypeOf ⟨s.symbols.length :: rest, fl⟩)
            (defaultFill (dtypeOf ⟨s.symbols.length :: rest, fl⟩) rest) Per.atom) name
            c.current_atom_index (chunkRows rest s.symbols.length fl))
            (c.current_structure_index + 1)
            (c.current_atom_index + s.symbols.length)).per_structure_arrays name = none := by
        rw [bumpCursors_ps, writePA_ps, add_array_atom_ps]
        exact hWps
      have hpa2 : alookup
          (bumpCursors (writePA (add_array W name rest (dtypeOf ⟨s.symbols.length :: rest, fl⟩)
            (defaultFill (dtypeOf ⟨s.symbols.length :: rest, fl⟩) rest) Per.atom) name
            c.current_atom_index (chunkRows rest s.symbols.length fl))
            (c.current_structure_index + 1)
            (c.current_atom_index + s.symbols.length)).per_atom_arrays name =
          some ⟨rest, dtypeOf ⟨s.symbols.length :: rest, fl⟩,
            defaultFill (dtypeOf ⟨s.symbols.length :: rest, fl⟩) rest,
            setSlice (List.replicate W.num_atoms_alloc
              (defaultFill (dtypeOf ⟨s.symbols.length :: rest, fl⟩) rest))
              c.current_atom_index (chunkRows rest s.symbols.length fl)⟩ := by
        rw [bumpCursors_pa, alookup_writePA_self,
          alookup_add_array_atom_self_none _ _ _ hWpa]
        rfl
      have hstw : psRow
          (bumpCursors (writePA (add_array W name rest (dtypeOf ⟨s.symbols.length :: rest, fl⟩)
            (defaultFill (dtypeOf ⟨s.symbols.length :: rest, fl⟩) rest) Per.atom) name
            c.current_atom_index (chunkRows rest s.symbols.length fl))
            (c.current_structure_index + 1) (c.current_atom_index + s.symbols.length))
          "start" c.current_structure_index = some (encNat c.current_atom_index) := by
        rw [psRow_bump, psRow_writePA, psRow_add_array_atom]
        exact hst
      have hlnw : psRow
          (bumpCursors (writePA (add_array W name rest (dtypeOf ⟨s.symbols.length :: rest, fl⟩)
            (defaultFill (dtypeOf ⟨s.symbols.length :: rest, fl⟩) rest) Per.atom) name
            c.current_atom_index (chunkRows rest s.symbols.length fl))
            (c.current_structure_index + 1) (c.current_atom_index + s.symbols.length))
          "length" c.current_structure_index = some (encNat s.symbols.length) := by
        rw [psRow_bump, psRow_writePA, psRow_add_array_atom]
        exact hln
      have hAR := atomRange_of_psRows hstw hlnw
      have hslice : (((setSlice (List.replicate W.num_atoms_alloc
            (defaultFill (dtypeOf ⟨s.symbols.length :: rest, fl⟩) rest))
            c.current_atom_index
            (chunkRows rest s.symbols.length fl)).drop c.current_atom_index).take
            s.symbols.length) =
          chunkRows rest s.symbols.length fl := by
        have h1 := @drop_take_setSlice NDVal
          (List.replicate W.num_atoms_alloc
            (defaultFill (dtypeOf ⟨s.symbols.length :: rest, fl⟩) rest))
          c.current_atom_index (chunkRows rest s.symbols.length fl)
          (by rw [List.length_replicate, chunkRows_length, hWaal]; exact haR)
        rw [chunkRows_length] at h1
        exact h1
      have hstack : stackRows rest (chunkRows rest s.symbols.length fl) =
          ⟨s.symbols.length :: rest, fl⟩ := by
        simp only [stackRows, chunkRows_length, map_flat_chunkRows]
        rw [flatten_chunkList rest.prod s.symbols.length fl
          (by rw [hflat2]; exact List.prod_cons)]
      simp only [get_array, htr, hps2, hpa2, hAR]
      rw [hslice, hstack]
  · intro hsh
    have hsh2 : sh = [] := hsh
    subst hsh2
    have hred : addKwarg W c.current_structure_index c.current_atom_index s.symbols.length
        name ⟨[], fl⟩ =
        writePS (add_array W name [] (dtypeOf ⟨[], fl⟩)
          (defaultFill (dtypeOf ⟨[], fl⟩) []) Per.struct) name
          c.current_structure_index ⟨[], fl⟩ := by
      simp only [addKwarg]
    constructor
    · rw [hC, hred]
      exact ⟨⟨[], dtypeOf ⟨[], fl⟩, defaultFill (dtypeOf ⟨[], fl⟩) [],
          setSlice (List.replicate W.num_structures_alloc (defaultFill (dtypeOf ⟨[], fl⟩) []))
            c.current_structure_index [⟨[], fl⟩]⟩,
        by rw [bumpCursors_ps, alookup_writePS_self,
             alookup_add_array_struct_self_none _ _ _ hWps]
           rfl,
        rfl⟩
    · rw [hC, hred, hns]
      exact get_array_bump_writePS_fresh _ _ _ _ _ _ hWps (by rw [hWsal]; exact hiR)
        (by omega)
  · intro d rest hsh hdn
    have hsh2 : sh = d :: rest := hsh
    subst hsh2
    by_cases hd1 : d = 1
    · subst hd1
      have hred : addKwarg W c.current_structure_index c.current_atom_index s.symbols.length
          name ⟨1 :: rest, fl⟩ =
          writePS (add_array W name rest (dtypeOf ⟨1 :: rest, fl⟩)
            (defaultFill (dtypeOf ⟨1 :: rest, fl⟩) rest) Per.struct) name
            c.current_structure_index ⟨rest, fl⟩ := by
        simp only [addKwarg]
        rw [if_neg hdn, if_pos trivial]
      constructor
      · rw [hC, hred]
        refine ⟨⟨rest, dtypeOf ⟨1 :: rest, fl⟩, defaultFill (dtypeOf ⟨1 :: rest, fl⟩) rest,
            setSlice (List.replicate W.num_structures_alloc
              (defaultFill (dtypeOf ⟨1 :: rest, fl⟩) rest))
              c.current_structure_index [⟨rest, fl⟩]⟩, ?_, ?_⟩
        · rw [bumpCursors_ps, alookup_writePS_self,
            alookup_add_array_struct_self_none _ _ _ hWps]
          rfl
        · rw [if_pos rfl]
      · rw [hC, hred, hns, if_pos rfl]
        exact get_array_bump_writePS_fresh _ _ _ _ _ _ hWps (by rw [hWsal]; exact hiR)
          (by omega)
    · have hred : addKwarg W c.current_structure_index c.current_atom_index s.symbols.length
          name ⟨d :: rest, fl⟩ =
          writePS (add_array W name (d :: rest) (dtypeOf ⟨d :: rest, fl⟩)
            (defaultFill (dtypeOf ⟨d :: rest, fl⟩) (d :: rest)) Per.struct) name
            c.current_structure_index ⟨d :: rest, fl⟩ := by
        simp only [addKwarg]
        rw [if_neg hdn, if_neg hd1]
      constructor
      · rw [hC, hred]
        refine ⟨⟨d :: rest, dtypeOf ⟨d :: rest, fl⟩,
            defaultFill (dtypeOf ⟨d :: rest, fl⟩) (d :: rest),
            setSlice (List.replicate W.num_structures_alloc
              (defaultFill (dtypeOf ⟨d :: rest, fl⟩) (d :: rest)))
              c.current_structure_index [⟨d :: rest, fl⟩]⟩, ?_, ?_⟩
        · rw [bumpCursors_ps, alookup_writePS_self,
            alookup_add_array_struct_self_none _ _ _ hWps]
          rfl
        · rw [if_neg hd1]
      · rw [hC, hred, hns, if_neg hd1]
        exact get_array_bump_writePS_fresh _ _ _ _ _ _ hWps (by rw [hWsal]; exact hiR)
          (by omega)

/-- Counterexample to claim C6 as stated: the extra keyword value wV12 has a
unit leading dimension, and get_array returns it with that dimension stripped,
not exactly the supplied value. -/
theorem add_structure_kwarg_strip_ce :
    get_array wKw "fnord" (Frame.idx 0) ≠ some wV12 := by decide

/-- Witness for claim C6 at a concrete container: a fresh keyword value of
shape one by two is stored per structure and read back with the unit leading
dimension stripped. -/
theorem add_structure_kwarg_inference_witness :
    get_array (add_structure (create 1 1) wFe none [("fnord", wV12)]) "fnord"
      (Frame.idx (num_structures (create 1 1))) = some ⟨[2], wV12.flat⟩ := by
  have h := (add_structure_kwarg_inference (create 1 1) wFe none "fnord" wV12 (by decide)
    (by decide) (by decide) (by decide) (by decide)).2.2 1 [2] rfl (by decide)
  simpa using h.2
